import Mathlib

/-! CustomDialog (HTMLDialogElement/js/es6.custom.dialog1.0.0.js)

A shallow embedding of the `CustomDialog` class and of the part of the browser
platform it drives.

* The DOM is a store of elements addressed by natural numbers.  Every element
  carries its own child list; a node has at most one parent in a well-formed
  tree, so "remove from the old parent" is "remove from every child list".
* Tree order (document order) is the preorder listing `descendants`.
* The CSS selector engine is a parameter (`SelectorEngine`): the class only
  passes selector texts through to `querySelector` / `querySelectorAll`.
* Inline style values are kept as the strings that were assigned.
* Scroll offsets are natural numbers (whole, non-negative pixels); layout is not
  modelled, so `scrollTo` reaches the offset it is given.
* `document.body` is a fixed node of the store.
* A JavaScript call that can throw returns a `Completion` together with the
  page as it is when the call ends: an exception does not undo earlier writes.
* `Page.calls` is the log of the mutating platform calls, in program order.
-/

namespace WebAPIs

/-! ## Platform model -/

/-- Errors that the modelled code paths can throw. -/
inductive JsError where
  /-- DOMException `SyntaxError`: the selector text is not a valid selector. -/
  | syntaxError
  /-- DOMException `InvalidStateError`: `showModal()` on a dialog that is not connected. -/
  | invalidStateError
  /-- Plain `new Error(message)`. -/
  | error (message : String)
  deriving DecidableEq, Repr

/-- How a JavaScript call ends: normally with a value, or with a thrown error. -/
inductive Completion (α : Type) where
  | returned (value : α)
  | threw (e : JsError)
  deriving DecidableEq, Repr

/-- One element of the DOM store. -/
structure Element where
  /-- Local name, e.g. `"div"`, `"dialog"`, `"style"`. -/
  tag : String
  /-- Value of the `id` attribute, `""` when there is none. -/
  ident : String
  /-- Class list. -/
  classes : List String
  /-- Child elements, first to last. -/
  children : List Nat
  /-- Text held by the element (`textContent` of a text-only element). -/
  textContent : String
  /-- Inline style: property name to assigned value, `""` when unset. -/
  style : String → String
  /-- Whether a dialog element is currently shown. -/
  isOpen : Bool

/-- A freshly created element: what `document.createElement(tag)` returns. -/
def Element.fresh (tag : String) : Element :=
  { tag := tag, ident := "", classes := [], children := [], textContent := "",
    style := fun _ => "", isOpen := false }

/-- The DOM store.  Nodes are `0 .. size - 1`; `size` is the next unused id. -/
structure Doc where
  size : Nat
  elem : Nat → Element
  /-- The root element of the document tree (`document.documentElement`). -/
  documentElement : Nat
  /-- The body element (`document.body`). -/
  body : Nat

/-- Proper descendants of `n` in preorder, following child lists at most `fuel` levels deep. -/
def subtree (d : Doc) : Nat → Nat → List Nat
  | 0, _ => []
  | fuel + 1, n => (d.elem n).children.flatMap (fun c => c :: subtree d fuel c)

/-- Proper descendants of `n` in tree order.  A tree with `size` nodes is less than
`size` levels deep, so `size` levels of fuel reach every descendant. -/
def descendants (d : Doc) (n : Nat) : List Nat := subtree d d.size n

/-- The elements of the document tree in tree order. -/
def documentNodes (d : Doc) : List Nat := d.documentElement :: descendants d d.documentElement

/-- Whether `n` is connected, that is, part of the document tree. -/
def isConnected (d : Doc) (n : Nat) : Bool := decide (n ∈ documentNodes d)

/-- `document.getElementById(id)`: the first element of the document, in tree order, with that id. -/
def getElementById (d : Doc) (id : String) : Option Nat :=
  (documentNodes d).find? (fun n => decide ((d.elem n).ident = id))

/-- The selector engine of the platform, taken as a parameter. -/
structure SelectorEngine where
  /-- Whether the text parses as a selector. -/
  valid : String → Bool
  /-- Whether the element `n` of `d` matches the selector text. -/
  isMatch : String → Doc → Nat → Bool

/-- `root.querySelector(sel)`: first matching proper descendant in tree order, `null` when none. -/
def querySelector (eng : SelectorEngine) (d : Doc) (root : Nat) (sel : String) :
    Except JsError (Option Nat) :=
  if eng.valid sel then .ok ((descendants d root).find? (eng.isMatch sel d))
  else .error .syntaxError

/-- `root.querySelectorAll(sel)`: all matching proper descendants in tree order. -/
def querySelectorAll (eng : SelectorEngine) (d : Doc) (root : Nat) (sel : String) :
    Except JsError (List Nat) :=
  if eng.valid sel then .ok ((descendants d root).filter (eng.isMatch sel d))
  else .error .syntaxError

/-- The closure scheduled by `closeDialog`; it captures the local `scrollY`. -/
inductive FrameCallback where
  | closeCleanup (scrollY : Option Nat)
  deriving DecidableEq, Repr

/-- The click listener registered by `initializeEvents`: `() => this.closeDialog()`. -/
inductive Handler where
  | callCloseDialog
  deriving DecidableEq, Repr

/-- A mutating platform call, as recorded in the call log. -/
inductive PlatformCall where
  | createElement (n : Nat) (tag : String)
  | appendChild (parent child : Nat)
  | setId (n : Nat) (value : String)
  | setTextContent (n : Nat) (value : String)
  | setStyle (n : Nat) (property value : String)
  | showModal (n : Nat)
  | close (n : Nat)
  | addEventListener (n : Nat)
  | requestAnimationFrame
  | scrollTo (top : Option Nat) (behavior : String)
  deriving DecidableEq, Repr

/-- The page: document, window scroll offset, pending frame callbacks, click listeners, call log. -/
structure Page where
  doc : Doc
  /-- Equals `window.scrollY`. -/
  scrollY : Nat
  /-- Callbacks passed to `requestAnimationFrame` and not yet run, oldest first. -/
  frames : List FrameCallback
  /-- Click listeners added by the controller, in registration order. -/
  listeners : List (Nat × Handler)
  /-- Mutating platform calls made so far, oldest first. -/
  calls : List PlatformCall

/-- Replace the element stored at `n`. -/
def Doc.put (d : Doc) (n : Nat) (e : Element) : Doc :=
  { d with elem := fun m => if m = n then e else d.elem m }

/-- `document.createElement(tag)`: a fresh, parentless element with the next unused id. -/
def createElement (p : Page) (tag : String) : Nat × Page :=
  (p.doc.size,
   { p with
     doc := { p.doc.put p.doc.size (Element.fresh tag) with size := p.doc.size + 1 },
     calls := p.calls ++ [.createElement p.doc.size tag] })

/-- `parent.appendChild(child)`: the child leaves its old parent and becomes the last child of `parent`. -/
def appendChild (p : Page) (parent child : Nat) : Page :=
  { p with
    doc := { p.doc with
      elem := fun n =>
        let e := p.doc.elem n
        let kept := e.children.filter (fun x => decide (x ≠ child))
        { e with children := if n = parent then kept ++ [child] else kept } },
    calls := p.calls ++ [.appendChild parent child] }

/-- The assignment `el.id = value`. -/
def setId (p : Page) (n : Nat) (value : String) : Page :=
  { p with doc := p.doc.put n { p.doc.elem n with ident := value },
           calls := p.calls ++ [.setId n value] }

/-- The assignment `el.textContent = value`: every child is removed, the text becomes `value`. -/
def setTextContent (p : Page) (n : Nat) (value : String) : Page :=
  { p with doc := p.doc.put n { p.doc.elem n with children := [], textContent := value },
           calls := p.calls ++ [.setTextContent n value] }

/-- The assignment `el.style[property] = value`. -/
def setStyle (p : Page) (n : Nat) (property value : String) : Page :=
  { p with
    doc := p.doc.put n { p.doc.elem n with
      style := fun q => if q = property then value else (p.doc.elem n).style q },
    calls := p.calls ++ [.setStyle n property value] }

/-- `dialog.showModal()` as in the HTML standard: it throws `InvalidStateError` when the
dialog is not connected, otherwise the dialog is open afterwards (a dialog that is already
shown modally stays as it is; the class never opens the wrapper in another way). -/
def showModal (p : Page) (n : Nat) : Completion Unit × Page :=
  let p1 := { p with calls := p.calls ++ [.showModal n] }
  if isConnected p.doc n then
    (.returned (), { p1 with doc := p1.doc.put n { p1.doc.elem n with isOpen := true } })
  else (.threw .invalidStateError, p1)

/-- `dialog.close()`: the dialog is not open afterwards. -/
def closeModal (p : Page) (n : Nat) : Page :=
  { p with doc := p.doc.put n { p.doc.elem n with isOpen := false },
           calls := p.calls ++ [.close n] }

/-- `el.addEventListener('click', handler)`. -/
def addEventListener (p : Page) (n : Nat) (h : Handler) : Page :=
  { p with listeners := p.listeners ++ [(n, h)], calls := p.calls ++ [.addEventListener n] }

/-- `requestAnimationFrame(callback)`. -/
def requestAnimationFrame (p : Page) (cb : FrameCallback) : Page :=
  { p with frames := p.frames ++ [cb], calls := p.calls ++ [.requestAnimationFrame] }

/-- `window.scrollTo(\x7b top, behavior \x7d)`: without a `top` the offset stays as it is. -/
def scrollTo (p : Page) (top : Option Nat) (behavior : String) : Page :=
  { p with scrollY := top.getD p.scrollY, calls := p.calls ++ [.scrollTo top behavior] }

/-- Read an inline style property of an element. -/
def styleOf (p : Page) (n : Nat) (property : String) : String := (p.doc.elem n).style property

/-- Child list of an element. -/
def childrenOf (p : Page) (n : Nat) : List Nat := (p.doc.elem n).children

/-- The propagation path of an event dispatched at `n`: the element itself, then its
ancestors from the parent outwards (at most `fuel` of them). -/
def pathFrom (d : Doc) : Nat → Nat → List Nat
  | 0, n => [n]
  | fuel + 1, n =>
    n :: match (List.range d.size).find? (fun q => decide (n ∈ (d.elem q).children)) with
         | some parent => pathFrom d fuel parent
         | none => []

/-- The propagation path of a click on `target`. -/
def eventPath (d : Doc) (target : Nat) : List Nat := pathFrom d d.size target

/-- The click listeners registered on `n`, in registration order. -/
def listenersOn (p : Page) (n : Nat) : List Handler :=
  (p.listeners.filter (fun l => decide (l.1 = n))).map (fun l => l.2)

/-- The listeners a click on `target` runs: those on the target first, then those on each
ancestor as the event bubbles. -/
def clickHandlers (p : Page) (target : Nat) : List Handler :=
  (eventPath p.doc target).flatMap (listenersOn p)

/-! ## The class -/

/-- The value of `options.closeButtonSelectors`. -/
inductive CloseSelectors where
  /-- The option is not given (`undefined`). -/
  | absent
  /-- A single selector text. -/
  | single (s : String)
  /-- An array of selector texts. -/
  | array (ss : List String)

/-- The `options` argument of the constructor. -/
structure Options where
  backdropStyle : Option String
  closeButtonSelectors : CloseSelectors

/-- The fields of a `CustomDialog` instance. -/
structure CustomDialog where
  root : Nat
  dialogContent : Nat
  dialog : Nat
  /-- The field `previousScrollY`; `none` while it has never been assigned. -/
  previousScrollY : Option Nat
  deriving DecidableEq, Repr

/-- A controller together with the page it lives in. -/
structure State where
  page : Page
  self : CustomDialog

/-- The text assigned in `setBackdropStyle`: the template literal around `style`. -/
def backdropRule (style : String) : String := "dialog::backdrop \x7b " ++ style ++ " \x7d"

/-- `setBackdropStyle(style)`. -/
def CustomDialog.setBackdropStyle (self : CustomDialog) (style : String) (p : Page) : Page :=
  match getElementById p.doc "dynamicDialogStyles" with
  | some styleTag => setTextContent p styleTag (backdropRule style)
  | none =>
    let p1 := (createElement p "style").2
    let styleTag := (createElement p "style").1
    let p2 := setId p1 styleTag "dynamicDialogStyles"
    let p3 := appendChild p2 self.root styleTag
    setTextContent p3 styleTag (backdropRule style)

/-- The object literal passed to `Object.assign` in `setDialogStyle`, in key order.
The number `0` given for `padding` is stored as the string `"0"`. -/
def dialogStyleTable : List (String × String) :=
  [("border", "unset"), ("overflow", "unset"), ("padding", "0"), ("margin", "0 auto"),
   ("background-color", "unset"), ("max-width", "unset"), ("max-height", "unset"),
   ("color", "unset"), ("position", "relative")]

/-- `setDialogStyle()`: `Object.assign` assigns the entries one after the other. -/
def CustomDialog.setDialogStyle (self : CustomDialog) (p : Page) : Page :=
  dialogStyleTable.foldl (fun q kv => setStyle q self.dialog kv.1 kv.2) p

/-- `showDialog()`. -/
def CustomDialog.showDialog (s : State) : Completion Unit × State :=
  let self1 := { s.self with previousScrollY := some s.page.scrollY }
  let p1 := setStyle s.page s.page.doc.body "position" "fixed"
  let p2 := setStyle p1 p1.doc.body "top" ("-" ++ toString s.page.scrollY ++ "px")
  let p3 := setStyle p2 p2.doc.body "width" "100%"
  let shown := showModal p3 self1.dialog
  match shown.1 with
  | .threw e => (.threw e, { page := shown.2, self := self1 })
  | .returned _ =>
    let p5 := setStyle shown.2 self1.dialogContent "display" "block"
    let p6 := setStyle p5 self1.dialogContent "width" "100vw"
    let p7 := setStyle p6 self1.dialogContent "height" "100vh"
    (.returned (), { page := p7, self := self1 })

/-- The body of the callback that `closeDialog` passes to `requestAnimationFrame`. -/
def runFrameCallback (p : Page) : FrameCallback → Page
  | .closeCleanup scrollY =>
    let p1 := setStyle p p.doc.body "position" ""
    let p2 := setStyle p1 p1.doc.body "top" ""
    let p3 := setStyle p2 p2.doc.body "width" ""
    scrollTo p3 scrollY "instant"

/-- `closeDialog()`. -/
def CustomDialog.closeDialog (s : State) : State :=
  let scrollY := s.self.previousScrollY
  let p1 := closeModal s.page s.self.dialog
  let p2 := setStyle p1 s.self.dialogContent "display" "none"
  { s with page := requestAnimationFrame p2 (.closeCleanup scrollY) }

/-- What `Array.isArray` and the DOMString conversion make of `closeButtonSelectors`:
an array is used as it is, anything else becomes a one-element array, and the value
`undefined` reaches `querySelectorAll` as the text `"undefined"`. -/
def selectorList : CloseSelectors → List String
  | .array ss => ss
  | .single s => [s]
  | .absent => ["undefined"]

/-- The outer `forEach` of `initializeEvents` over the selector texts still to be handled. -/
def wireSelectors (eng : SelectorEngine) (self : CustomDialog) :
    List String → Page → Completion Unit × Page
  | [], p => (.returned (), p)
  | sel :: rest, p =>
    match querySelectorAll eng p.doc self.dialogContent sel with
    | .error e => (.threw e, p)
    | .ok buttons =>
      wireSelectors eng self rest
        (buttons.foldl (fun q button => addEventListener q button .callCloseDialog) p)

/-- `initializeEvents(closeButtonSelectors)`. -/
def CustomDialog.initializeEvents (eng : SelectorEngine) (self : CustomDialog)
    (closeButtonSelectors : CloseSelectors) (p : Page) : Completion Unit × Page :=
  wireSelectors eng self (selectorList closeButtonSelectors) p

/-- The page after the constructor has created the wrapper, moved the content node into
it and appended the wrapper to the root (source lines 19 to 21). -/
def wrapContent (p : Page) (root content : Nat) : Page :=
  let p1 := (createElement p "dialog").2
  let dialog := (createElement p "dialog").1
  let p2 := appendChild p1 dialog content
  appendChild p2 root dialog

/-- The conditional call of `setBackdropStyle` in the constructor (source lines 23 to 25):
it is made when `options.backdropStyle` is truthy, that is, a non-empty string. -/
def CustomDialog.backdropOption (self : CustomDialog) (options : Options) (p : Page) : Page :=
  match options.backdropStyle with
  | some style => if style = "" then p else self.setBackdropStyle style p
  | none => p

/-- The page the constructor hands to `initializeEvents`: the optional backdrop style and
the style resets (source lines 23 to 26) applied to the page `p` that holds the wrapper. -/
def styledPage (self : CustomDialog) (options : Options) (p : Page) : Page :=
  self.setDialogStyle (self.backdropOption options p)

/-- `new CustomDialog(root, dialogContentSelector, options)`.  `root` is `none` for a
missing or null argument. -/
def CustomDialog.constructor (eng : SelectorEngine) (root : Option Nat)
    (dialogContentSelector : String) (options : Options) (p : Page) :
    Completion CustomDialog × Page :=
  match querySelector eng p.doc (root.getD p.doc.body) dialogContentSelector with
  | .error e => (.threw e, p)
  | .ok none => (.threw (.error "Dialog content not found"), p)
  | .ok (some content) =>
    let self : CustomDialog :=
      { root := root.getD p.doc.body, dialogContent := content, dialog := p.doc.size,
        previousScrollY := none }
    let wired := self.initializeEvents eng options.closeButtonSelectors
      (styledPage self options (wrapContent p self.root content))
    match wired.1 with
    | .threw e => (.threw e, wired.2)
    | .returned _ => (.returned self, wired.2)

/-! ## Events driven by the platform -/

/-- One animation frame: the pending callbacks run oldest first and the list is emptied. -/
def animationFrame (p : Page) : Page :=
  p.frames.foldl runFrameCallback { p with frames := [] }

/-- The next animation frame, seen from a controller. -/
def State.frame (s : State) : State := { s with page := animationFrame s.page }

/-- The window is scrolled to `y` by something other than the controller. -/
def State.scrolled (s : State) (y : Nat) : State := { s with page := { s.page with scrollY := y } }

/-- Run one click listener. -/
def runHandler (s : State) : Handler → State
  | .callCloseDialog => CustomDialog.closeDialog s

/-- A click on `target`: the listeners on its propagation path run one after the other. -/
def click (s : State) (target : Nat) : State :=
  (clickHandlers s.page target).foldl runHandler s

/-- A call of one of the two public methods. -/
inductive Call where
  | showDialog
  | closeDialog
  deriving DecidableEq, Repr

/-- The state after a public method call has ended, normally or by throwing. -/
def State.call (s : State) : Call → State
  | .showDialog => (CustomDialog.showDialog s).2
  | .closeDialog => CustomDialog.closeDialog s

/-- The state after a sequence of public method calls. -/
def State.calls (s : State) (cs : List Call) : State := cs.foldl State.call s

/-- Every child listed by a node of the store is itself a node of the store. -/
def Doc.Closed (d : Doc) : Prop :=
  ∀ n < d.size, ∀ x ∈ (d.elem n).children, x < d.size

/-- The child lists form a forest on the nodes of the store: children are nodes of the
store, and `rank` (for instance the height of a node) drops from a node to each of its
children and stays below the number of nodes. -/
def Doc.IsForest (d : Doc) (rank : Nat → Nat) : Prop :=
  ∀ n < d.size, rank n < d.size ∧ ∀ x ∈ (d.elem n).children, x < d.size ∧ rank x < rank n

/-- The elements on which `initializeEvents` registers a listener for the selector texts
`l`, in registration order, repetitions included. -/
def wiredElements (eng : SelectorEngine) (d : Doc) (content : Nat) (l : List String) : List Nat :=
  l.flatMap (fun sel => (descendants d content).filter (eng.isMatch sel d))

/-- The platform calls made by one run of the cleanup callback, in order. -/
def cleanupCalls (body : Nat) : FrameCallback → List PlatformCall
  | .closeCleanup scrollY =>
    [.setStyle body "position" "", .setStyle body "top" "", .setStyle body "width" "",
     .scrollTo scrollY "instant"]

/-- The scroll offset a cleanup callback asks for. -/
def FrameCallback.top : FrameCallback → Option Nat
  | .closeCleanup scrollY => scrollY

/-! ## Example pages -/

/-- Characters allowed in a name of the example selector language. -/
def isNameChar (c : Char) : Bool := c.isAlphanum || c = '-' || c = '_'

/-- Whether the characters form a non-empty name. -/
def isName (cs : List Char) : Bool := !cs.isEmpty && cs.all isNameChar

/-- A small selector engine for the examples.  It knows the compound selectors `tag`,
`#id`, `.class` and `tag.class`; every other text is invalid. -/
def simpleEngine : SelectorEngine where
  valid s :=
    match s.data with
    | '#' :: r => isName r
    | '.' :: r => isName r
    | cs =>
      match cs.splitOn '.' with
      | [t] => isName t
      | [t, c] => isName t && isName c
      | _ => false
  isMatch s d n :=
    match s.data with
    | '#' :: r => decide ((d.elem n).ident = String.mk r)
    | '.' :: r => decide (String.mk r ∈ (d.elem n).classes)
    | cs =>
      match cs.splitOn '.' with
      | [t] => decide ((d.elem n).tag = String.mk t)
      | [t, c] =>
        decide ((d.elem n).tag = String.mk t) && decide (String.mk c ∈ (d.elem n).classes)
      | _ => false

/-- The page of the end-to-end scenario: `html > body > div#content > button.close`,
scrolled to offset 120. -/
def scenarioPage : Page where
  doc :=
    { size := 4
      elem := fun n =>
        match n with
        | 0 => { Element.fresh "html" with children := [1] }
        | 1 => { Element.fresh "body" with children := [2] }
        | 2 => { Element.fresh "div" with ident := "content", children := [3] }
        | 3 => { Element.fresh "button" with classes := ["close"] }
        | _ => Element.fresh ""
      documentElement := 0
      body := 1 }
  scrollY := 120
  frames := []
  listeners := []
  calls := []

/-- The controller of the end-to-end scenario right after
`new CustomDialog(null, '#content', \x7b closeButtonSelectors: '.close' \x7d)`. -/
def scenarioState : State where
  page := (CustomDialog.constructor simpleEngine none "#content"
    { backdropStyle := none, closeButtonSelectors := .single ".close" } scenarioPage).2
  self := { root := 1, dialogContent := 2, dialog := 4, previousScrollY := none }

/-- The page of testable property P5: `div#content` holds two `button.a` and two `button.b`. -/
def fourButtonsPage : Page where
  doc :=
    { size := 7
      elem := fun n =>
        match n with
        | 0 => { Element.fresh "html" with children := [1] }
        | 1 => { Element.fresh "body" with children := [2] }
        | 2 => { Element.fresh "div" with ident := "content", children := [3, 4, 5, 6] }
        | 3 => { Element.fresh "button" with classes := ["a"] }
        | 4 => { Element.fresh "button" with classes := ["a"] }
        | 5 => { Element.fresh "button" with classes := ["b"] }
        | 6 => { Element.fresh "button" with classes := ["b"] }
        | _ => Element.fresh ""
      documentElement := 0
      body := 1 }
  scrollY := 0
  frames := []
  listeners := []
  calls := []

/-- A page whose node 2 is a `div` that is not attached to the document:
`html > body` and, apart from it, `div > div#content`. -/
def detachedPage : Page where
  doc :=
    { size := 4
      elem := fun n =>
        match n with
        | 0 => { Element.fresh "html" with children := [1] }
        | 1 => { Element.fresh "body" with children := [] }
        | 2 => { Element.fresh "div" with children := [3] }
        | 3 => { Element.fresh "div" with ident := "content" }
        | _ => Element.fresh ""
      documentElement := 0
      body := 1 }
  scrollY := 0
  frames := []
  listeners := []
  calls := []

/-- The controller made by `new CustomDialog(div, '#content')` for the detached `div`
(node 2) of `detachedPage`, with the page after the call. -/
def detachedState : State where
  page := (CustomDialog.constructor simpleEngine (some 2) "#content"
    { backdropStyle := none, closeButtonSelectors := .absent } detachedPage).2
  self := { root := 2, dialogContent := 3, dialog := 4, previousScrollY := none }

/-- Heights of the nodes of the page of `scenarioState`:
`html > body > dialog > div#content > button.close`. -/
def scenarioStateRank : Nat → Nat
  | 0 => 4
  | 1 => 3
  | 4 => 2
  | 2 => 1
  | _ => 0


/-! ## Field lemmas for the platform calls -/

section fields
variable (p : Page) (n m : Nat) (k v q : String)

@[simp] theorem setStyle_body : (setStyle p n k v).doc.body = p.doc.body := rfl
@[simp] theorem setStyle_size : (setStyle p n k v).doc.size = p.doc.size := rfl
@[simp] theorem setStyle_documentElement :
    (setStyle p n k v).doc.documentElement = p.doc.documentElement := rfl
@[simp] theorem setStyle_scrollY : (setStyle p n k v).scrollY = p.scrollY := rfl
@[simp] theorem setStyle_frames : (setStyle p n k v).frames = p.frames := rfl
@[simp] theorem setStyle_listeners : (setStyle p n k v).listeners = p.listeners := rfl
@[simp] theorem setStyle_calls : (setStyle p n k v).calls = p.calls ++ [.setStyle n k v] := rfl

@[simp] theorem setStyle_children :
    ((setStyle p n k v).doc.elem m).children = (p.doc.elem m).children := by
  simp only [setStyle, Doc.put]; split <;> simp_all

@[simp] theorem setStyle_isOpen :
    ((setStyle p n k v).doc.elem m).isOpen = (p.doc.elem m).isOpen := by
  simp only [setStyle, Doc.put]; split <;> simp_all

@[simp] theorem setStyle_ident :
    ((setStyle p n k v).doc.elem m).ident = (p.doc.elem m).ident := by
  simp only [setStyle, Doc.put]; split <;> simp_all

@[simp] theorem setStyle_style :
    ((setStyle p n k v).doc.elem m).style q
      = if m = n ∧ q = k then v else (p.doc.elem m).style q := by
  simp only [setStyle, Doc.put]
  by_cases h1 : m = n <;> by_cases h2 : q = k <;> simp [h1, h2]

@[simp] theorem styleOf_setStyle :
    styleOf (setStyle p n k v) m q = if m = n ∧ q = k then v else styleOf p m q := by
  simp [styleOf]

@[simp] theorem childrenOf_setStyle : childrenOf (setStyle p n k v) m = childrenOf p m := by
  simp [childrenOf]

@[simp] theorem closeModal_body : (closeModal p n).doc.body = p.doc.body := rfl
@[simp] theorem closeModal_scrollY : (closeModal p n).scrollY = p.scrollY := rfl
@[simp] theorem closeModal_frames : (closeModal p n).frames = p.frames := rfl
@[simp] theorem closeModal_listeners : (closeModal p n).listeners = p.listeners := rfl
@[simp] theorem closeModal_calls : (closeModal p n).calls = p.calls ++ [.close n] := rfl

@[simp] theorem closeModal_isOpen :
    ((closeModal p n).doc.elem m).isOpen = (if m = n then false else (p.doc.elem m).isOpen) := by
  simp only [closeModal, Doc.put]; split <;> simp_all

@[simp] theorem closeModal_style :
    ((closeModal p n).doc.elem m).style q = (p.doc.elem m).style q := by
  simp only [closeModal, Doc.put]; split <;> simp_all

@[simp] theorem styleOf_closeModal : styleOf (closeModal p n) m q = styleOf p m q := by
  simp [styleOf]

@[simp] theorem showModal_fst :
    (showModal p n).1
      = if isConnected p.doc n then .returned () else .threw .invalidStateError := by
  simp only [showModal]; split <;> rfl

@[simp] theorem showModal_body : (showModal p n).2.doc.body = p.doc.body := by
  simp only [showModal]; split <;> rfl

@[simp] theorem showModal_scrollY : (showModal p n).2.scrollY = p.scrollY := by
  simp only [showModal]; split <;> rfl

@[simp] theorem showModal_frames : (showModal p n).2.frames = p.frames := by
  simp only [showModal]; split <;> rfl

@[simp] theorem showModal_listeners : (showModal p n).2.listeners = p.listeners := by
  simp only [showModal]; split <;> rfl

@[simp] theorem showModal_calls : (showModal p n).2.calls = p.calls ++ [.showModal n] := by
  simp only [showModal]; split <;> rfl

@[simp] theorem showModal_isOpen :
    ((showModal p n).2.doc.elem m).isOpen
      = (if m = n ∧ isConnected p.doc n = true then true else (p.doc.elem m).isOpen) := by
  simp only [showModal, Doc.put]
  by_cases h1 : isConnected p.doc n = true <;> by_cases h2 : m = n <;> simp [h1, h2]

@[simp] theorem showModal_style :
    ((showModal p n).2.doc.elem m).style q = (p.doc.elem m).style q := by
  simp only [showModal, Doc.put]
  by_cases h1 : isConnected p.doc n = true <;> by_cases h2 : m = n <;> simp [h1, h2]

@[simp] theorem styleOf_showModal : styleOf (showModal p n).2 m q = styleOf p m q := by
  simp [styleOf]

end fields

section fields2
variable (p : Page) (cb : FrameCallback) (top : Option Nat) (b : String)

@[simp] theorem requestAnimationFrame_doc : (requestAnimationFrame p cb).doc = p.doc := rfl
@[simp] theorem requestAnimationFrame_scrollY : (requestAnimationFrame p cb).scrollY = p.scrollY := rfl
@[simp] theorem requestAnimationFrame_frames :
    (requestAnimationFrame p cb).frames = p.frames ++ [cb] := rfl
@[simp] theorem requestAnimationFrame_listeners :
    (requestAnimationFrame p cb).listeners = p.listeners := rfl
@[simp] theorem requestAnimationFrame_calls :
    (requestAnimationFrame p cb).calls = p.calls ++ [.requestAnimationFrame] := rfl
@[simp] theorem styleOf_requestAnimationFrame (m : Nat) (q : String) :
    styleOf (requestAnimationFrame p cb) m q = styleOf p m q := rfl

@[simp] theorem scrollTo_doc : (scrollTo p top b).doc = p.doc := rfl
@[simp] theorem scrollTo_scrollY : (scrollTo p top b).scrollY = top.getD p.scrollY := rfl
@[simp] theorem scrollTo_frames : (scrollTo p top b).frames = p.frames := rfl
@[simp] theorem scrollTo_listeners : (scrollTo p top b).listeners = p.listeners := rfl
@[simp] theorem scrollTo_calls : (scrollTo p top b).calls = p.calls ++ [.scrollTo top b] := rfl
@[simp] theorem styleOf_scrollTo (m : Nat) (q : String) :
    styleOf (scrollTo p top b) m q = styleOf p m q := rfl

end fields2


section fields3
variable (p : Page) (n m par c : Nat) (tag v q : String) (h : Handler)

@[simp] theorem createElement_fst : (createElement p tag).1 = p.doc.size := rfl
@[simp] theorem createElement_size : (createElement p tag).2.doc.size = p.doc.size + 1 := rfl
@[simp] theorem createElement_body : (createElement p tag).2.doc.body = p.doc.body := rfl
@[simp] theorem createElement_documentElement :
    (createElement p tag).2.doc.documentElement = p.doc.documentElement := rfl
@[simp] theorem createElement_listeners : (createElement p tag).2.listeners = p.listeners := rfl
@[simp] theorem createElement_scrollY : (createElement p tag).2.scrollY = p.scrollY := rfl
@[simp] theorem createElement_frames : (createElement p tag).2.frames = p.frames := rfl
@[simp] theorem createElement_elem :
    (createElement p tag).2.doc.elem m
      = if m = p.doc.size then Element.fresh tag else p.doc.elem m := rfl

@[simp] theorem appendChild_size : (appendChild p par c).doc.size = p.doc.size := rfl
@[simp] theorem appendChild_body : (appendChild p par c).doc.body = p.doc.body := rfl
@[simp] theorem appendChild_documentElement :
    (appendChild p par c).doc.documentElement = p.doc.documentElement := rfl
@[simp] theorem appendChild_listeners : (appendChild p par c).listeners = p.listeners := rfl
@[simp] theorem appendChild_scrollY : (appendChild p par c).scrollY = p.scrollY := rfl
@[simp] theorem appendChild_frames : (appendChild p par c).frames = p.frames := rfl
@[simp] theorem appendChild_children :
    ((appendChild p par c).doc.elem m).children
      = if m = par then (p.doc.elem m).children.filter (fun x => decide (x ≠ c)) ++ [c]
        else (p.doc.elem m).children.filter (fun x => decide (x ≠ c)) := by
  simp only [appendChild]
@[simp] theorem appendChild_ident :
    ((appendChild p par c).doc.elem m).ident = (p.doc.elem m).ident := rfl
@[simp] theorem appendChild_tag :
    ((appendChild p par c).doc.elem m).tag = (p.doc.elem m).tag := rfl
@[simp] theorem appendChild_textContent :
    ((appendChild p par c).doc.elem m).textContent = (p.doc.elem m).textContent := rfl
@[simp] theorem appendChild_style :
    ((appendChild p par c).doc.elem m).style = (p.doc.elem m).style := rfl
@[simp] theorem appendChild_isOpen :
    ((appendChild p par c).doc.elem m).isOpen = (p.doc.elem m).isOpen := rfl

@[simp] theorem setId_size : (setId p n v).doc.size = p.doc.size := rfl
@[simp] theorem setId_body : (setId p n v).doc.body = p.doc.body := rfl
@[simp] theorem setId_documentElement :
    (setId p n v).doc.documentElement = p.doc.documentElement := rfl
@[simp] theorem setId_listeners : (setId p n v).listeners = p.listeners := rfl
@[simp] theorem setId_children :
    ((setId p n v).doc.elem m).children = (p.doc.elem m).children := by
  simp only [setId, Doc.put]; split <;> simp_all
@[simp] theorem setId_ident :
    ((setId p n v).doc.elem m).ident = if m = n then v else (p.doc.elem m).ident := by
  simp only [setId, Doc.put]; split <;> simp_all
@[simp] theorem setId_tag : ((setId p n v).doc.elem m).tag = (p.doc.elem m).tag := by
  simp only [setId, Doc.put]; split <;> simp_all
@[simp] theorem setId_textContent :
    ((setId p n v).doc.elem m).textContent = (p.doc.elem m).textContent := by
  simp only [setId, Doc.put]; split <;> simp_all
@[simp] theorem setId_style : ((setId p n v).doc.elem m).style = (p.doc.elem m).style := by
  simp only [setId, Doc.put]; split <;> simp_all

@[simp] theorem setTextContent_size : (setTextContent p n v).doc.size = p.doc.size := rfl
@[simp] theorem setTextContent_body : (setTextContent p n v).doc.body = p.doc.body := rfl
@[simp] theorem setTextContent_documentElement :
    (setTextContent p n v).doc.documentElement = p.doc.documentElement := rfl
@[simp] theorem setTextContent_listeners : (setTextContent p n v).listeners = p.listeners := rfl
@[simp] theorem setTextContent_children :
    ((setTextContent p n v).doc.elem m).children = if m = n then [] else (p.doc.elem m).children := by
  simp only [setTextContent, Doc.put]; split <;> simp_all
@[simp] theorem setTextContent_ident :
    ((setTextContent p n v).doc.elem m).ident = (p.doc.elem m).ident := by
  simp only [setTextContent, Doc.put]; split <;> simp_all
@[simp] theorem setTextContent_tag :
    ((setTextContent p n v).doc.elem m).tag = (p.doc.elem m).tag := by
  simp only [setTextContent, Doc.put]; split <;> simp_all
@[simp] theorem setTextContent_textContent :
    ((setTextContent p n v).doc.elem m).textContent
      = if m = n then v else (p.doc.elem m).textContent := by
  simp only [setTextContent, Doc.put]; split <;> simp_all
@[simp] theorem setTextContent_style :
    ((setTextContent p n v).doc.elem m).style = (p.doc.elem m).style := by
  simp only [setTextContent, Doc.put]; split <;> simp_all

@[simp] theorem addEventListener_doc : (addEventListener p n h).doc = p.doc := rfl
@[simp] theorem addEventListener_listeners :
    (addEventListener p n h).listeners = p.listeners ++ [(n, h)] := rfl
@[simp] theorem addEventListener_scrollY : (addEventListener p n h).scrollY = p.scrollY := rfl
@[simp] theorem addEventListener_frames : (addEventListener p n h).frames = p.frames := rfl

@[simp] theorem setStyle_tag : ((setStyle p n tag v).doc.elem m).tag = (p.doc.elem m).tag := by
  simp only [setStyle, Doc.put]; split <;> simp_all
@[simp] theorem setStyle_textContent :
    ((setStyle p n tag v).doc.elem m).textContent = (p.doc.elem m).textContent := by
  simp only [setStyle, Doc.put]; split <;> simp_all

end fields3


theorem subtree_congr (d d' : Doc) (h : ∀ n, (d'.elem n).children = (d.elem n).children) :
    ∀ k n, subtree d' k n = subtree d k n := by
  intro k
  induction k with
  | zero => intro n; rfl
  | succ k ih =>
    intro n
    simp only [subtree, h n]
    congr 1
    funext c
    rw [ih c]

theorem isConnected_congr (d d' : Doc) (hs : d'.size = d.size)
    (he : d'.documentElement = d.documentElement)
    (h : ∀ n, (d'.elem n).children = (d.elem n).children) (n : Nat) :
    isConnected d' n = isConnected d n := by
  simp only [isConnected, documentNodes, descendants, hs, he, subtree_congr d d' h]

@[simp] theorem isConnected_setStyle (p : Page) (n : Nat) (k v : String) (m : Nat) :
    isConnected (setStyle p n k v).doc m = isConnected p.doc m :=
  isConnected_congr p.doc (setStyle p n k v).doc rfl rfl (fun x => setStyle_children p n x k v) m


section cb
variable (p : Page) (cb : FrameCallback)

@[simp] theorem runFrameCallback_body : (runFrameCallback p cb).doc.body = p.doc.body := by
  cases cb; rfl
@[simp] theorem runFrameCallback_frames : (runFrameCallback p cb).frames = p.frames := by
  cases cb; rfl
@[simp] theorem runFrameCallback_listeners : (runFrameCallback p cb).listeners = p.listeners := by
  cases cb; rfl
@[simp] theorem runFrameCallback_scrollY :
    (runFrameCallback p cb).scrollY = cb.top.getD p.scrollY := by
  cases cb; rfl
@[simp] theorem runFrameCallback_calls :
    (runFrameCallback p cb).calls = p.calls ++ cleanupCalls p.doc.body cb := by
  cases cb; simp [runFrameCallback, cleanupCalls]
@[simp] theorem runFrameCallback_isOpen (m : Nat) :
    ((runFrameCallback p cb).doc.elem m).isOpen = (p.doc.elem m).isOpen := by
  cases cb; simp [runFrameCallback]
theorem runFrameCallback_style (m : Nat) (q : String) :
    styleOf (runFrameCallback p cb) m q
      = if m = p.doc.body ∧ (q = "position" ∨ q = "top" ∨ q = "width") then ""
        else styleOf p m q := by
  cases cb
  simp only [runFrameCallback, styleOf_scrollTo, styleOf_setStyle, setStyle_body]
  by_cases h : m = p.doc.body <;> by_cases h1 : q = "position" <;> by_cases h2 : q = "top" <;>
    by_cases h3 : q = "width" <;> simp [h, h1, h2, h3]

end cb

theorem foldl_runFrameCallback_body (l : List FrameCallback) :
    ∀ p : Page, (l.foldl runFrameCallback p).doc.body = p.doc.body := by
  induction l with
  | nil => intro p; rfl
  | cons cb l ih => intro p; simp [List.foldl_cons, ih]

theorem foldl_runFrameCallback_frames (l : List FrameCallback) :
    ∀ p : Page, (l.foldl runFrameCallback p).frames = p.frames := by
  induction l with
  | nil => intro p; rfl
  | cons cb l ih => intro p; simp [List.foldl_cons, ih]

theorem foldl_runFrameCallback_isOpen (l : List FrameCallback) (m : Nat) :
    ∀ p : Page, ((l.foldl runFrameCallback p).doc.elem m).isOpen = (p.doc.elem m).isOpen := by
  induction l with
  | nil => intro p; rfl
  | cons cb l ih => intro p; simp [List.foldl_cons, ih]

theorem foldl_runFrameCallback_calls (l : List FrameCallback) :
    ∀ p : Page, (l.foldl runFrameCallback p).calls
      = p.calls ++ l.flatMap (cleanupCalls p.doc.body) := by
  induction l with
  | nil => intro p; simp
  | cons cb l ih => intro p; simp [List.foldl_cons, ih, List.flatMap_cons]


section methods
variable (s : State)

@[simp] theorem showDialog_self :
    (CustomDialog.showDialog s).2.self
      = { s.self with previousScrollY := some s.page.scrollY } := by
  simp only [CustomDialog.showDialog]; split <;> rfl

@[simp] theorem showDialog_frames : (CustomDialog.showDialog s).2.page.frames = s.page.frames := by
  simp only [CustomDialog.showDialog]; split <;> simp

@[simp] theorem showDialog_listeners :
    (CustomDialog.showDialog s).2.page.listeners = s.page.listeners := by
  simp only [CustomDialog.showDialog]; split <;> simp

@[simp] theorem showDialog_scrollY : (CustomDialog.showDialog s).2.page.scrollY = s.page.scrollY := by
  simp only [CustomDialog.showDialog]; split <;> simp

@[simp] theorem showDialog_body : (CustomDialog.showDialog s).2.page.doc.body = s.page.doc.body := by
  simp only [CustomDialog.showDialog]; split <;> simp

@[simp] theorem closeDialog_self : (CustomDialog.closeDialog s).self = s.self := rfl

@[simp] theorem closeDialog_frames :
    (CustomDialog.closeDialog s).page.frames
      = s.page.frames ++ [.closeCleanup s.self.previousScrollY] := by
  simp [CustomDialog.closeDialog]

@[simp] theorem closeDialog_listeners :
    (CustomDialog.closeDialog s).page.listeners = s.page.listeners := by
  simp [CustomDialog.closeDialog]

@[simp] theorem closeDialog_scrollY : (CustomDialog.closeDialog s).page.scrollY = s.page.scrollY := by
  simp [CustomDialog.closeDialog]

@[simp] theorem closeDialog_body : (CustomDialog.closeDialog s).page.doc.body = s.page.doc.body := by
  simp [CustomDialog.closeDialog]

@[simp] theorem closeDialog_calls :
    (CustomDialog.closeDialog s).page.calls
      = s.page.calls ++ [.close s.self.dialog, .setStyle s.self.dialogContent "display" "none",
          .requestAnimationFrame] := by
  simp [CustomDialog.closeDialog]

end methods


section more
variable (p : Page) (n m : Nat)
@[simp] theorem closeModal_size : (closeModal p n).doc.size = p.doc.size := rfl
@[simp] theorem closeModal_documentElement :
    (closeModal p n).doc.documentElement = p.doc.documentElement := rfl
@[simp] theorem closeModal_children :
    ((closeModal p n).doc.elem m).children = (p.doc.elem m).children := by
  simp only [closeModal, Doc.put]; split <;> simp_all
@[simp] theorem showModal_size : (showModal p n).2.doc.size = p.doc.size := by
  simp only [showModal]; split <;> rfl
@[simp] theorem showModal_documentElement :
    (showModal p n).2.doc.documentElement = p.doc.documentElement := by
  simp only [showModal]; split <;> rfl
@[simp] theorem showModal_children :
    ((showModal p n).2.doc.elem m).children = (p.doc.elem m).children := by
  simp only [showModal, Doc.put]
  by_cases h1 : isConnected p.doc n = true <;> by_cases h2 : m = n <;> simp [h1, h2]
@[simp] theorem isConnected_closeModal :
    isConnected (closeModal p n).doc m = isConnected p.doc m :=
  isConnected_congr p.doc (closeModal p n).doc rfl rfl (fun x => closeModal_children p n x) m
@[simp] theorem isConnected_showModal :
    isConnected (showModal p n).2.doc m = isConnected p.doc m :=
  isConnected_congr p.doc (showModal p n).2.doc (showModal_size p n) (showModal_documentElement p n)
    (fun x => showModal_children p n x) m
end more

@[simp] theorem isConnected_showDialog (s : State) (m : Nat) :
    isConnected (CustomDialog.showDialog s).2.page.doc m = isConnected s.page.doc m := by
  simp only [CustomDialog.showDialog]; split <;> simp

@[simp] theorem isConnected_closeDialog (s : State) (m : Nat) :
    isConnected (CustomDialog.closeDialog s).page.doc m = isConnected s.page.doc m := by
  simp [CustomDialog.closeDialog]

theorem showDialog_isOpen (s : State) (h : isConnected s.page.doc s.self.dialog = true) :
    ((CustomDialog.showDialog s).2.page.doc.elem s.self.dialog).isOpen = true := by
  simp [CustomDialog.showDialog, h]

theorem frames_calls (cs : List Call) :
    ∀ s : State, ∃ later, (s.calls cs).page.frames = s.page.frames ++ later := by
  induction cs with
  | nil => intro s; exact ⟨[], by simp [State.calls]⟩
  | cons c cs ih =>
    intro s
    obtain ⟨later, h⟩ := ih (s.call c)
    cases c with
    | showDialog =>
      refine ⟨later, ?_⟩
      simpa [State.calls, State.call] using h
    | closeDialog =>
      refine ⟨.closeCleanup s.self.previousScrollY :: later, ?_⟩
      simpa [State.calls, State.call] using h

theorem body_calls (cs : List Call) :
    ∀ s : State, (s.calls cs).page.doc.body = s.page.doc.body := by
  induction cs with
  | nil => intro s; rfl
  | cons c cs ih =>
    intro s
    have h := ih (s.call c)
    cases c <;> simpa [State.calls, State.call] using h

theorem animationFrame_style (p : Page) (h : p.frames ≠ []) (q : String)
    (hq : q = "position" ∨ q = "top" ∨ q = "width") :
    styleOf (animationFrame p) p.doc.body q = "" := by
  obtain ⟨l, cb, hl⟩ : ∃ l cb, p.frames = l ++ [cb] := by
    rcases List.eq_nil_or_concat p.frames with h0 | ⟨l, cb, h1⟩
    · exact absurd h0 h
    · exact ⟨l, cb, by simpa using h1⟩
  simp [animationFrame, hl, List.foldl_append, runFrameCallback_style, foldl_runFrameCallback_body, hq]


theorem animationFrame_split (p : Page) (pre later : List FrameCallback) (cb : FrameCallback)
    (h : p.frames = pre ++ cb :: later) :
    animationFrame p
      = later.foldl runFrameCallback
          (runFrameCallback (pre.foldl runFrameCallback { p with frames := [] }) cb) := by
  simp [animationFrame, h, List.foldl_append]

@[simp] theorem animationFrame_isOpen (p : Page) (m : Nat) :
    ((animationFrame p).doc.elem m).isOpen = (p.doc.elem m).isOpen := by
  simp [animationFrame, foldl_runFrameCallback_isOpen]

theorem foldl_addEventListener_doc (h : Handler) (buttons : List Nat) :
    ∀ p : Page, (buttons.foldl (fun q b => addEventListener q b h) p).doc = p.doc := by
  induction buttons with
  | nil => intro p; rfl
  | cons b bs ih => intro p; simp [List.foldl_cons, ih]

theorem foldl_addEventListener_listeners (h : Handler) (buttons : List Nat) :
    ∀ p : Page, (buttons.foldl (fun q b => addEventListener q b h) p).listeners
      = p.listeners ++ buttons.map (fun b => (b, h)) := by
  induction buttons with
  | nil => intro p; simp
  | cons b bs ih => intro p; simp [List.foldl_cons, ih]

theorem wireSelectors_doc (eng : SelectorEngine) (self : CustomDialog) (l : List String) :
    ∀ p : Page, (wireSelectors eng self l p).2.doc = p.doc := by
  induction l with
  | nil => intro p; rfl
  | cons sel rest ih =>
    intro p
    by_cases hv : eng.valid sel = true
    · simp [wireSelectors, querySelectorAll, hv, ih, foldl_addEventListener_doc]
    · simp [wireSelectors, querySelectorAll, hv]

theorem wireSelectors_returned (eng : SelectorEngine) (self : CustomDialog) (l : List String) :
    ∀ p : Page, (wireSelectors eng self l p).1 = .returned () ↔ ∀ sel ∈ l, eng.valid sel = true := by
  induction l with
  | nil => intro p; simp [wireSelectors]
  | cons sel rest ih =>
    intro p
    by_cases hv : eng.valid sel = true
    · simp [wireSelectors, querySelectorAll, hv, ih]
    · simp [wireSelectors, querySelectorAll, hv]

theorem wireSelectors_listeners (eng : SelectorEngine) (self : CustomDialog) (l : List String) :
    ∀ p : Page, (∀ sel ∈ l, eng.valid sel = true) →
      (wireSelectors eng self l p).2.listeners
        = p.listeners
          ++ (wiredElements eng p.doc self.dialogContent l).map (fun b => (b, Handler.callCloseDialog)) := by
  induction l with
  | nil => intro p _; simp [wireSelectors, wiredElements]
  | cons sel rest ih =>
    intro p hv
    have hv1 : eng.valid sel = true := hv sel (List.mem_cons_self _ _)
    have hv2 : ∀ s ∈ rest, eng.valid s = true := fun s hs => hv s (List.mem_cons_of_mem _ hs)
    simp only [wireSelectors, querySelectorAll, hv1, if_true]
    rw [ih _ hv2]
    simp [foldl_addEventListener_listeners, foldl_addEventListener_doc, wiredElements,
      List.flatMap_cons]


theorem constructor_returned (eng : SelectorEngine) (root : Option Nat) (sel : String)
    (options : Options) (p : Page) (self : CustomDialog)
    (h : (CustomDialog.constructor eng root sel options p).1 = .returned self) :
    ∃ content, querySelector eng p.doc (root.getD p.doc.body) sel = .ok (some content) ∧
      self = { root := root.getD p.doc.body, dialogContent := content, dialog := p.doc.size,
               previousScrollY := none } ∧
      ∀ s ∈ selectorList options.closeButtonSelectors, eng.valid s = true := by
  unfold CustomDialog.constructor at h
  cases hq : querySelector eng p.doc (root.getD p.doc.body) sel with
  | error e => simp [hq] at h
  | ok o =>
    cases o with
    | none => simp [hq] at h
    | some content =>
      refine ⟨content, rfl, ?_⟩
      simp only [hq] at h
      split at h
      · simp at h
      · rename_i hw
        simp only [Completion.returned.injEq] at h
        refine ⟨h.symm, ?_⟩
        rw [CustomDialog.initializeEvents] at hw
        exact (wireSelectors_returned eng _ (selectorList options.closeButtonSelectors) _).1
          (by rw [hw])

theorem constructor_found (eng : SelectorEngine) (root : Option Nat) (sel : String)
    (options : Options) (p : Page) (content : Nat)
    (hq : querySelector eng p.doc (root.getD p.doc.body) sel = .ok (some content)) :
    (CustomDialog.constructor eng root sel options p).2
      = (wireSelectors eng ⟨root.getD p.doc.body, content, p.doc.size, none⟩
          (selectorList options.closeButtonSelectors)
          (styledPage ⟨root.getD p.doc.body, content, p.doc.size, none⟩ options
            (wrapContent p (root.getD p.doc.body) content))).2 ∧
    ((∀ s ∈ selectorList options.closeButtonSelectors, eng.valid s = true) →
      (CustomDialog.constructor eng root sel options p).1
        = .returned ⟨root.getD p.doc.body, content, p.doc.size, none⟩) := by
  simp only [CustomDialog.constructor, hq, CustomDialog.initializeEvents]
  constructor
  · split <;> rfl
  · intro hv
    have := (wireSelectors_returned eng ⟨root.getD p.doc.body, content, p.doc.size, none⟩
      (selectorList options.closeButtonSelectors)
      (styledPage ⟨root.getD p.doc.body, content, p.doc.size, none⟩ options
            (wrapContent p (root.getD p.doc.body) content))).2 hv
    simp [this]


section ctor
variable (self : CustomDialog) (options : Options) (p : Page) (st : String) (m : Nat) (q : String)

@[simp] theorem setDialogStyle_size : (self.setDialogStyle p).doc.size = p.doc.size := rfl
@[simp] theorem setDialogStyle_body : (self.setDialogStyle p).doc.body = p.doc.body := rfl
@[simp] theorem setDialogStyle_documentElement :
    (self.setDialogStyle p).doc.documentElement = p.doc.documentElement := rfl
@[simp] theorem setDialogStyle_listeners : (self.setDialogStyle p).listeners = p.listeners := rfl
@[simp] theorem setDialogStyle_children :
    ((self.setDialogStyle p).doc.elem m).children = (p.doc.elem m).children := by
  simp [CustomDialog.setDialogStyle, dialogStyleTable]
@[simp] theorem setDialogStyle_ident :
    ((self.setDialogStyle p).doc.elem m).ident = (p.doc.elem m).ident := by
  simp [CustomDialog.setDialogStyle, dialogStyleTable]
@[simp] theorem setDialogStyle_tag :
    ((self.setDialogStyle p).doc.elem m).tag = (p.doc.elem m).tag := by
  simp [CustomDialog.setDialogStyle, dialogStyleTable]
@[simp] theorem setDialogStyle_textContent :
    ((self.setDialogStyle p).doc.elem m).textContent = (p.doc.elem m).textContent := by
  simp [CustomDialog.setDialogStyle, dialogStyleTable]

theorem setDialogStyle_style :
    styleOf (self.setDialogStyle p) m q
      = if m = self.dialog then
          (if q = "position" then "relative" else if q = "color" then "unset"
           else if q = "max-height" then "unset" else if q = "max-width" then "unset"
           else if q = "background-color" then "unset" else if q = "margin" then "0 auto"
           else if q = "padding" then "0" else if q = "overflow" then "unset"
           else if q = "border" then "unset" else styleOf p m q)
        else styleOf p m q := by
  by_cases h : m = self.dialog
  · simp only [CustomDialog.setDialogStyle, dialogStyleTable, List.foldl, styleOf_setStyle, h,
      true_and, if_true]
  · simp [CustomDialog.setDialogStyle, dialogStyleTable, h]

theorem setBackdropStyle_listeners :
    (self.setBackdropStyle st p).listeners = p.listeners := by
  unfold CustomDialog.setBackdropStyle
  split <;> simp

theorem setBackdropStyle_style (hm : m ≠ p.doc.size) :
    styleOf (self.setBackdropStyle st p) m q = styleOf p m q := by
  unfold CustomDialog.setBackdropStyle
  split <;> simp [styleOf, hm]

theorem wrapContent_style (root content : Nat) :
    styleOf (wrapContent p root content) p.doc.size q = "" := by
  simp [wrapContent, styleOf, Element.fresh]

@[simp] theorem wrapContent_size (root content : Nat) :
    (wrapContent p root content).doc.size = p.doc.size + 1 := rfl

@[simp] theorem wrapContent_listeners (root content : Nat) :
    (wrapContent p root content).listeners = p.listeners := rfl

theorem styledPage_listeners : (styledPage self options p).listeners = p.listeners := by
  unfold styledPage CustomDialog.backdropOption
  cases options.backdropStyle with
  | none => rfl
  | some style =>
    by_cases hs : style = ""
    · simp [hs]
    · simp [hs, setBackdropStyle_listeners]

theorem styledPage_style (hm : m ≠ p.doc.size) (hd : m = self.dialog) :
    styleOf (styledPage self options p) m q
      = (if q = "position" then "relative" else if q = "color" then "unset"
           else if q = "max-height" then "unset" else if q = "max-width" then "unset"
           else if q = "background-color" then "unset" else if q = "margin" then "0 auto"
           else if q = "padding" then "0" else if q = "overflow" then "unset"
           else if q = "border" then "unset" else styleOf p m q) := by
  have inner : styleOf (self.backdropOption options p) m q = styleOf p m q := by
    unfold CustomDialog.backdropOption
    cases options.backdropStyle with
    | none => rfl
    | some style =>
      by_cases hs : style = ""
      · simp [hs]
      · simp [hs, setBackdropStyle_style _ _ _ _ _ hm]
  unfold styledPage
  rw [setDialogStyle_style, if_pos hd, inner]

end ctor


theorem mem_wiredElements (eng : SelectorEngine) (d : Doc) (content : Nat) (l : List String)
    (n : Nat) :
    n ∈ wiredElements eng d content l
      ↔ n ∈ descendants d content ∧ ∃ s ∈ l, eng.isMatch s d n = true := by
  simp only [wiredElements, List.mem_flatMap, List.mem_filter]
  constructor
  · rintro ⟨s, hs, hn, hm⟩
    exact ⟨hn, s, hs, hm⟩
  · rintro ⟨hn, s, hs, hm⟩
    exact ⟨s, hs, hn, hm⟩

theorem filter_map_count (wired : List Nat) (a : Nat) :
    ((wired.map (fun b => (b, Handler.callCloseDialog))).filter
        (fun l => decide (l.1 = a))).map (fun l => l.2)
      = List.replicate (wired.count a) Handler.callCloseDialog := by
  induction wired with
  | nil => simp
  | cons b bs ih =>
    by_cases hb : b = a
    · subst hb
      simp only [List.map_cons, List.filter_cons, decide_True, if_true, List.count_cons_self,
        List.replicate_succ, ih]
    · have hb2 : (b == a) = false := by simpa using hb
      simp only [List.map_cons, List.filter_cons, hb, decide_False, Bool.false_eq_true, if_false,
        List.count_cons, hb2, add_zero, ih]

theorem listenersOn_eq (p : Page) (wired : List Nat) (a : Nat)
    (h : p.listeners = wired.map (fun b => (b, Handler.callCloseDialog))) :
    listenersOn p a = List.replicate (wired.count a) Handler.callCloseDialog := by
  unfold listenersOn
  rw [h]
  exact filter_map_count wired a

theorem flatMap_replicate {α β : Type} (l : List α) (f : α → Nat) (x : β) :
    l.flatMap (fun a => List.replicate (f a) x) = List.replicate ((l.map f).sum) x := by
  induction l with
  | nil => rfl
  | cons a l ih =>
    rw [List.flatMap_cons, ih, List.map_cons, List.sum_cons, List.replicate_add]

theorem foldl_runHandler_replicate (n : Nat) :
    ∀ s : State, (List.replicate n Handler.callCloseDialog).foldl runHandler s
      = Nat.iterate CustomDialog.closeDialog n s := by
  induction n with
  | zero => intro s; rfl
  | succ n ih =>
    intro s
    simp [List.replicate_succ, ih, runHandler]


theorem subtree_lt (d : Doc) (hc : d.Closed) :
    ∀ k n, n < d.size → ∀ x ∈ subtree d k n, x < d.size := by
  intro k
  induction k with
  | zero => intro n _ x hx; simp [subtree] at hx
  | succ k ih =>
    intro n hn x hx
    simp only [subtree, List.mem_flatMap, List.mem_cons] at hx
    obtain ⟨c, hcmem, hx⟩ := hx
    have hcl := hc n hn c hcmem
    rcases hx with rfl | hx
    · exact hcl
    · exact ih c hcl x hx

theorem descendants_lt (d : Doc) (hc : d.Closed) (n : Nat) (hn : n < d.size) :
    ∀ x ∈ descendants d n, x < d.size := subtree_lt d hc d.size n hn

theorem subtree_nil_of_children_nil (d : Doc) (n : Nat) (h : (d.elem n).children = []) :
    ∀ k, subtree d k n = [] := by
  intro k
  cases k with
  | zero => rfl
  | succ k => simp [subtree, h]

theorem filter_ne_self (l : List Nat) (c : Nat) (h : c ∉ l) :
    l.filter (fun x => decide (x ≠ c)) = l := by
  rw [List.filter_eq_self]
  intro a ha
  simp only [ne_eq, decide_not, Bool.not_eq_eq_eq_not, Bool.not_true, decide_eq_false_iff_not]
  rintro rfl
  exact h ha

theorem wrapContent_children (p : Page) (root content n : Nat) :
    childrenOf (wrapContent p root content) n
      = if n = root then
          ((if n = p.doc.size then [content]
            else (childrenOf p n).filter (fun x => decide (x ≠ content))).filter
              (fun x => decide (x ≠ p.doc.size))) ++ [p.doc.size]
        else
          (if n = p.doc.size then [content]
            else (childrenOf p n).filter (fun x => decide (x ≠ content))).filter
              (fun x => decide (x ≠ p.doc.size)) := by
  simp only [wrapContent, childrenOf, appendChild_children, createElement_fst, createElement_elem]
  by_cases h2 : n = p.doc.size
  · subst h2
    by_cases h1 : p.doc.size = root
    · simp [h1, Element.fresh]
    · simp [h1, Element.fresh]
  · by_cases h1 : n = root
    · subst h1; simp [h2]
    · simp [h1, h2]


theorem wrapContent_children_wrapper (p : Page) (root content : Nat)
    (hr : root < p.doc.size) (hcont : content < p.doc.size) :
    childrenOf (wrapContent p root content) p.doc.size = [content] := by
  rw [wrapContent_children]
  have h1 : p.doc.size ≠ root := by omega
  have h2 : content ≠ p.doc.size := by omega
  simp [h1, h2]

theorem wrapContent_children_root (p : Page) (root content : Nat) (hc : p.doc.Closed)
    (hr : root < p.doc.size) :
    childrenOf (wrapContent p root content) root
      = (childrenOf p root).filter (fun x => decide (x ≠ content)) ++ [p.doc.size] := by
  rw [wrapContent_children]
  have h1 : root ≠ p.doc.size := by omega
  simp only [h1, if_true, if_false]
  rw [filter_ne_self]
  intro hmem
  have := hc root hr p.doc.size (List.mem_of_mem_filter hmem)
  omega

theorem wrapContent_children_other (p : Page) (root content n : Nat) (hc : p.doc.Closed)
    (hn : n < p.doc.size) (hnr : n ≠ root) :
    childrenOf (wrapContent p root content) n
      = (childrenOf p n).filter (fun x => decide (x ≠ content)) := by
  rw [wrapContent_children]
  have h1 : n ≠ p.doc.size := by omega
  simp only [h1, hnr, if_false]
  rw [filter_ne_self]
  intro hmem
  have := hc n hn p.doc.size (List.mem_of_mem_filter hmem)
  omega

theorem wrapContent_ident (p : Page) (root content n : Nat) :
    ((wrapContent p root content).doc.elem n).ident
      = if n = p.doc.size then "" else (p.doc.elem n).ident := by
  simp only [wrapContent, appendChild_ident, createElement_elem]
  split <;> simp [Element.fresh]

theorem wrapContent_tag (p : Page) (root content : Nat) :
    ((wrapContent p root content).doc.elem p.doc.size).tag = "dialog" := by
  simp [wrapContent, Element.fresh]

theorem setBackdropStyle_none (self : CustomDialog) (st : String) (p : Page)
    (h : getElementById p.doc "dynamicDialogStyles" = none) :
    self.setBackdropStyle st p
      = setTextContent
          (appendChild (setId (createElement p "style").2 p.doc.size "dynamicDialogStyles")
            self.root p.doc.size)
          p.doc.size (backdropRule st) := by
  simp [CustomDialog.setBackdropStyle, h]

theorem setBackdropStyle_some (self : CustomDialog) (st : String) (p : Page) (t : Nat)
    (h : getElementById p.doc "dynamicDialogStyles" = some t) :
    self.setBackdropStyle st p = setTextContent p t (backdropRule st) := by
  simp [CustomDialog.setBackdropStyle, h]

theorem getElementById_some (d : Doc) (id : String) (t : Nat) (h : getElementById d id = some t) :
    t ∈ documentNodes d ∧ (d.elem t).ident = id := by
  unfold getElementById at h
  have h1 := List.find?_some h
  have h2 := List.mem_of_find?_eq_some h
  exact ⟨h2, by simpa using h1⟩


theorem querySelector_some (eng : SelectorEngine) (d : Doc) (root : Nat) (sel : String)
    (content : Nat) (hq : querySelector eng d root sel = .ok (some content)) :
    content ∈ descendants d root ∧ eng.isMatch sel d content = true ∧
    ∃ pre post, descendants d root = pre ++ content :: post ∧
      ∀ x ∈ pre, eng.isMatch sel d x = false := by
  unfold querySelector at hq
  split at hq
  · simp only [Except.ok.injEq] at hq
    refine ⟨List.mem_of_find?_eq_some hq, List.find?_some hq, ?_⟩
    obtain ⟨_, pre, post, hl, hpre⟩ := List.find?_eq_some.1 hq
    exact ⟨pre, post, hl, fun x hx => by simpa using hpre x hx⟩
  · simp at hq

/-- What the optional `setBackdropStyle` call of the constructor does to the child lists of
the page that holds the appended wrapper. -/
theorem backdropOption_children (self : CustomDialog) (options : Options) (p3 : Page)
    (hstyle : ∀ t, getElementById p3.doc "dynamicDialogStyles" = some t →
      t < p3.doc.size → childrenOf p3 t = [])
    (hclosed : ∀ n < p3.doc.size, ∀ x ∈ childrenOf p3 n, x < p3.doc.size) :
    ∃ created : List Nat,
      (∀ n < p3.doc.size, childrenOf (self.backdropOption options p3) n
          = childrenOf p3 n ++ (if n = self.root then created else [])) ∧
      (∀ n < p3.doc.size, ((self.backdropOption options p3).doc.elem n).tag
          = (p3.doc.elem n).tag) ∧
      (self.backdropOption options p3).doc.size = p3.doc.size + created.length ∧
      (created = [] ∨
        (created = [p3.doc.size] ∧ options.backdropStyle ≠ none ∧
          ((self.backdropOption options p3).doc.elem p3.doc.size).tag = "style" ∧
          ((self.backdropOption options p3).doc.elem p3.doc.size).ident = "dynamicDialogStyles" ∧
          childrenOf (self.backdropOption options p3) p3.doc.size = [])) ∧
      (options.backdropStyle = none → created = []) := by
  unfold CustomDialog.backdropOption
  cases hb : options.backdropStyle with
  | none => exact ⟨[], by simp, by simp, by simp, Or.inl rfl, fun _ => rfl⟩
  | some style =>
    by_cases hempty : style = ""
    · exact ⟨[], by simp [hempty], by simp [hempty], by simp [hempty], Or.inl rfl, fun h => by simp at h⟩
    · simp only [hempty, if_false]
      cases hg : getElementById p3.doc "dynamicDialogStyles" with
      | some t =>
        rw [setBackdropStyle_some _ _ _ t hg]
        refine ⟨[], ?_, ?_, by simp, Or.inl rfl, fun h => by simp at h⟩
        · intro n hn
          simp only [childrenOf, setTextContent_children, ite_self, List.append_nil]
          split
          · rename_i hnt
            subst hnt
            exact (hstyle n hg hn).symm
          · rfl
        · intro n _
          simp
      | none =>
        rw [setBackdropStyle_none _ _ _ hg]
        refine ⟨[p3.doc.size], ?_, ?_, by simp, Or.inr ⟨rfl, by simp, ?_, ?_, ?_⟩,
          fun h => by simp at h⟩
        · intro n hn
          have hne : n ≠ p3.doc.size := by omega
          have hfil : (childrenOf p3 n).filter (fun x => decide (x ≠ p3.doc.size))
              = childrenOf p3 n := by
            apply filter_ne_self
            intro hmem
            have := hclosed n hn _ hmem
            omega
          simp only [childrenOf] at hfil
          simp only [childrenOf, setTextContent_children, hne, if_false, appendChild_children,
            setId_children, createElement_elem, createElement_fst, hfil]
          split <;> simp
        · intro n hn
          have hne : n ≠ p3.doc.size := by omega
          simp [hne]
        · simp [Element.fresh]
        · simp
        · simp [childrenOf]



theorem IsForest.closed (d : Doc) (rank : Nat → Nat) (hf : d.IsForest rank) : d.Closed :=
  fun n hn x hx => ((hf n hn).2 x hx).1

theorem subtree_rank (d : Doc) (rank : Nat → Nat) (hf : d.IsForest rank) :
    ∀ k n, n < d.size → ∀ x ∈ subtree d k n, x < d.size ∧ rank x < rank n := by
  intro k
  induction k with
  | zero => intro n _ x hx; simp [subtree] at hx
  | succ k ih =>
    intro n hn x hx
    simp only [subtree, List.mem_flatMap, List.mem_cons] at hx
    obtain ⟨c, hcmem, hx⟩ := hx
    have hcl := (hf n hn).2 c hcmem
    rcases hx with rfl | hx
    · exact hcl
    · have := ih c hcl.1 x hx
      exact ⟨this.1, by omega⟩

theorem subtree_succ_of_rank_le (d : Doc) (rank : Nat → Nat) (hf : d.IsForest rank) :
    ∀ k n, n < d.size → rank n ≤ k → subtree d (k + 1) n = subtree d k n := by
  intro k
  induction k with
  | zero =>
    intro n hn hk
    have hnil : (d.elem n).children = [] := by
      cases hch : (d.elem n).children with
      | nil => rfl
      | cons c cs =>
        have := ((hf n hn).2 c (by rw [hch]; exact List.mem_cons_self _ _)).2
        omega
    simp [subtree, hnil]
  | succ k ih =>
    intro n hn hk
    rw [subtree, subtree]
    apply List.flatMap_congr
    intro c hcmem
    have hcl := (hf n hn).2 c hcmem
    rw [ih c hcl.1 (by omega)]

theorem subtree_add_of_rank_le (d : Doc) (rank : Nat → Nat) (hf : d.IsForest rank)
    (k n : Nat) (hn : n < d.size) (hk : rank n ≤ k) :
    ∀ j, subtree d (k + j) n = subtree d k n := by
  intro j
  induction j with
  | zero => rfl
  | succ j ih =>
    rw [← Nat.add_assoc, subtree_succ_of_rank_le d rank hf (k + j) n hn (by omega), ih]

/-- In a forest, more fuel than the number of nodes does not change the listing of the
descendants: `descendants` lists all of them. -/
theorem subtree_eq_descendants (d : Doc) (rank : Nat → Nat) (hf : d.IsForest rank)
    (n : Nat) (hn : n < d.size) (j : Nat) :
    subtree d (d.size + j) n = descendants d n :=
  subtree_add_of_rank_le d rank hf d.size n hn (by have := (hf n hn).1; omega) j

theorem subtree_mono (d : Doc) :
    ∀ k n x, x ∈ subtree d k n → x ∈ subtree d (k + 1) n := by
  intro k
  induction k with
  | zero => intro n x hx; simp [subtree] at hx
  | succ k ih =>
    intro n x hx
    rw [subtree] at hx ⊢
    simp only [List.mem_flatMap, List.mem_cons] at hx ⊢
    obtain ⟨c, hcmem, hx⟩ := hx
    refine ⟨c, hcmem, ?_⟩
    rcases hx with rfl | hx
    · exact Or.inl rfl
    · exact Or.inr (ih c x hx)

theorem subtree_mono_add (d : Doc) (k n x : Nat) (hx : x ∈ subtree d k n) :
    ∀ j, x ∈ subtree d (j + k) n := by
  intro j
  induction j with
  | zero => simpa using hx
  | succ j ih =>
    have := subtree_mono d (j + k) n x ih
    rwa [show j + 1 + k = j + k + 1 by omega]

theorem subtree_trans (d : Doc) (b r x : Nat) (hx : x ∈ subtree d b r) :
    ∀ a n, r ∈ subtree d a n → x ∈ subtree d (a + b) n := by
  intro a
  induction a with
  | zero => intro n hr; simp [subtree] at hr
  | succ a ih =>
    intro n hr
    rw [subtree] at hr
    rw [show a + 1 + b = (a + b) + 1 by omega, subtree]
    simp only [List.mem_flatMap, List.mem_cons] at hr ⊢
    obtain ⟨c, hcmem, hr⟩ := hr
    refine ⟨c, hcmem, Or.inr ?_⟩
    rcases hr with rfl | hr
    · exact subtree_mono_add d b r x hx a
    · exact ih c hr

theorem descendants_trans (d : Doc) (rank : Nat → Nat) (hf : d.IsForest rank)
    (n r x : Nat) (hn : n < d.size) (hr : r ∈ descendants d n) (hx : x ∈ descendants d r) :
    x ∈ descendants d n := by
  have := subtree_trans d d.size r x hx d.size n hr
  rwa [subtree_eq_descendants d rank hf n hn] at this

theorem mem_documentNodes_of_descendant (d : Doc) (rank : Nat → Nat) (hf : d.IsForest rank)
    (hde : d.documentElement < d.size) (r x : Nat) (hr : r ∈ documentNodes d)
    (hx : x ∈ descendants d r) : x ∈ documentNodes d := by
  simp only [documentNodes, List.mem_cons] at hr ⊢
  rcases hr with rfl | hr
  · exact Or.inr hx
  · exact Or.inr (descendants_trans d rank hf _ r x hde hr hx)

theorem documentNodes_lt (d : Doc) (hc : d.Closed) (hde : d.documentElement < d.size) :
    ∀ x ∈ documentNodes d, x < d.size := by
  intro x hx
  simp only [documentNodes, List.mem_cons] at hx
  rcases hx with rfl | hx
  · exact hde
  · exact descendants_lt d hc _ hde x hx

theorem find?_unique {α : Type} (l : List α) (f : α → Bool) (s : α) (hs : s ∈ l) (hf : f s = true)
    (hu : ∀ x ∈ l, f x = true → x = s) : l.find? f = some s := by
  induction l with
  | nil => simp at hs
  | cons a l ih =>
    by_cases ha : f a = true
    · have := hu a (List.mem_cons_self _ _) ha
      subst this
      simp [List.find?_cons, ha]
    · have hne : s ≠ a := fun h => ha (h ▸ hf)
      have hs2 : s ∈ l := by
        rcases List.mem_cons.1 hs with h | h
        · exact absurd h hne
        · exact h
      simp only [List.find?_cons, ha]
      exact ih hs2 (fun x hx => hu x (List.mem_cons_of_mem _ hx))



theorem subtree_leaf_sub (d d1 : Doc) (root s : Nat) (hc : d.Closed)
    (h1 : ∀ n < d.size, (d1.elem n).children
      = (d.elem n).children ++ (if n = root then [s] else []))
    (h2 : (d1.elem s).children = []) :
    ∀ k n, n < d.size → ∀ x ∈ subtree d1 k n, x = s ∨ x ∈ subtree d k n := by
  intro k
  induction k with
  | zero => intro n _ x hx; simp [subtree] at hx
  | succ k ih =>
    intro n hn x hx
    rw [subtree] at hx ⊢
    simp only [List.mem_flatMap, List.mem_cons, h1 n hn, List.mem_append] at hx ⊢
    obtain ⟨c, hcmem, hx⟩ := hx
    rcases hcmem with hcmem | hcmem
    · have hcl := hc n hn c hcmem
      rcases hx with rfl | hx
      · exact Or.inr ⟨x, hcmem, Or.inl rfl⟩
      · rcases ih c hcl x hx with h | h
        · exact Or.inl h
        · exact Or.inr ⟨c, hcmem, Or.inr h⟩
    · have hcs : c = s := by
        split at hcmem
        · simpa using hcmem
        · simp at hcmem
      subst hcs
      rcases hx with rfl | hx
      · exact Or.inl rfl
      · rw [subtree_nil_of_children_nil d1 c h2 k] at hx
        simp at hx

theorem subtree_leaf_sup (d d1 : Doc) (root s : Nat) (hc : d.Closed)
    (h1 : ∀ n < d.size, (d1.elem n).children
      = (d.elem n).children ++ (if n = root then [s] else [])) :
    ∀ k n, n < d.size → ∀ x ∈ subtree d k n, x ∈ subtree d1 k n := by
  intro k
  induction k with
  | zero => intro n _ x hx; simp [subtree] at hx
  | succ k ih =>
    intro n hn x hx
    rw [subtree] at hx ⊢
    simp only [List.mem_flatMap, List.mem_cons, h1 n hn, List.mem_append] at hx ⊢
    obtain ⟨c, hcmem, hx⟩ := hx
    have hcl := hc n hn c hcmem
    refine ⟨c, Or.inl hcmem, ?_⟩
    rcases hx with rfl | hx
    · exact Or.inl rfl
    · exact Or.inr (ih c hcl x hx)

theorem subtree_leaf_root (d d1 : Doc) (root s : Nat)
    (h1 : ∀ n < d.size, (d1.elem n).children
      = (d.elem n).children ++ (if n = root then [s] else []))
    (hr : root < d.size) : ∀ k, s ∈ subtree d1 (k + 1) root := by
  intro k
  rw [subtree]
  simp only [List.mem_flatMap, List.mem_cons, h1 root hr, List.mem_append]
  exact ⟨s, Or.inr (by simp), Or.inl rfl⟩

theorem subtree_leaf_below (d d1 : Doc) (root s : Nat) (hc : d.Closed)
    (h1 : ∀ n < d.size, (d1.elem n).children
      = (d.elem n).children ++ (if n = root then [s] else []))
    (hr : root < d.size) :
    ∀ k n, n < d.size → root ∈ subtree d k n → s ∈ subtree d1 (k + 1) n := by
  intro k
  induction k with
  | zero => intro n _ hx; simp [subtree] at hx
  | succ k ih =>
    intro n hn hx
    rw [subtree] at hx
    rw [subtree]
    simp only [List.mem_flatMap, List.mem_cons, h1 n hn, List.mem_append] at hx ⊢
    obtain ⟨c, hcmem, hx⟩ := hx
    have hcl := hc n hn c hcmem
    refine ⟨c, Or.inl hcmem, Or.inr ?_⟩
    rcases hx with rfl | hx
    · exact subtree_leaf_root d d1 root s h1 hr k
    · exact ih c hcl hx


theorem subtree_prune_sub (d d1 : Doc) (t : Nat)
    (h1 : ∀ n, (d1.elem n).children = if n = t then [] else (d.elem n).children) : ∀ k n, ∀ x ∈ subtree d1 k n, x ∈ subtree d k n := by
  intro k
  induction k with
  | zero => intro n x hx; simp [subtree] at hx
  | succ k ih =>
    intro n x hx
    rw [subtree] at hx ⊢
    simp only [List.mem_flatMap, List.mem_cons, h1 n] at hx ⊢
    obtain ⟨c, hcmem, hx⟩ := hx
    have hcm : c ∈ (d.elem n).children := by
      split at hcmem
      · simp at hcmem
      · exact hcmem
    refine ⟨c, hcm, ?_⟩
    rcases hx with rfl | hx
    · exact Or.inl rfl
    · exact Or.inr (ih c x hx)

theorem subtree_prune_keeps (d d1 : Doc) (t : Nat)
    (h1 : ∀ n, (d1.elem n).children = if n = t then [] else (d.elem n).children)
    (rank : Nat → Nat) (hf : d.IsForest rank) :
    ∀ k n, n < d.size → t ∈ subtree d k n → t ∈ subtree d1 k n := by
  intro k
  induction k with
  | zero => intro n _ hx; simp [subtree] at hx
  | succ k ih =>
    intro n hn hx
    have hnt : n ≠ t := by
      rintro rfl
      have := (subtree_rank d rank hf (k + 1) n hn n hx).2
      omega
    rw [subtree] at hx ⊢
    simp only [List.mem_flatMap, List.mem_cons, h1 n, hnt, if_false] at hx ⊢
    obtain ⟨c, hcmem, hx⟩ := hx
    have hcl := (hf n hn).2 c hcmem
    refine ⟨c, hcmem, ?_⟩
    rcases hx with rfl | hx
    · exact Or.inl rfl
    · exact Or.inr (ih c hcl.1 hx)




theorem getElementById_none (d : Doc) (id : String) (h : getElementById d id = none) :
    ∀ x ∈ documentNodes d, (d.elem x).ident ≠ id := by
  unfold getElementById at h
  rw [List.find?_eq_none] at h
  intro x hx
  simpa using h x hx


theorem constructor_listeners (eng : SelectorEngine) (root : Option Nat) (sel : String)
    (options : Options) (p : Page) (content : Nat)
    (hq : querySelector eng p.doc (root.getD p.doc.body) sel = .ok (some content))
    (hv : ∀ s ∈ selectorList options.closeButtonSelectors, eng.valid s = true) :
    (CustomDialog.constructor eng root sel options p).2.listeners
      = p.listeners
        ++ (wiredElements eng (CustomDialog.constructor eng root sel options p).2.doc
              content (selectorList options.closeButtonSelectors)).map
            (fun b => (b, Handler.callCloseDialog)) := by
  rw [(constructor_found eng root sel options p content hq).1,
    wireSelectors_listeners _ _ _ _ hv, wireSelectors_doc]
  simp [styledPage_listeners]

theorem pathFrom_succ_of_rank (d : Doc) (rank : Nat → Nat) (hf : d.IsForest rank) :
    ∀ k n, d.size ≤ rank n + 1 + k → pathFrom d (k + 1) n = pathFrom d k n := by
  intro k
  induction k with
  | zero =>
    intro n hk
    have hnone : (List.range d.size).find? (fun q => decide (n ∈ (d.elem q).children)) = none := by
      rw [List.find?_eq_none]
      intro q hq hmem
      have hq2 : q < d.size := List.mem_range.1 hq
      have h1 := (hf q hq2).1
      have h2 := ((hf q hq2).2 n (by simpa using hmem)).2
      omega
    simp [pathFrom, hnone]
  | succ k ih =>
    intro n hk
    rw [pathFrom]
    conv_rhs => rw [pathFrom]
    cases hp : (List.range d.size).find? (fun q => decide (n ∈ (d.elem q).children)) with
    | none => rfl
    | some q =>
      have hq2 : q < d.size := List.mem_range.1 (List.mem_of_find?_eq_some hp)
      have hmem : n ∈ (d.elem q).children := by simpa using List.find?_some hp
      have h2 := ((hf q hq2).2 n hmem).2
      simp only
      rw [ih q (by omega)]

/-- In a forest, more fuel than the number of nodes does not lengthen a propagation path. -/
theorem pathFrom_eq_eventPath (d : Doc) (rank : Nat → Nat) (hf : d.IsForest rank) (n : Nat) :
    ∀ j, pathFrom d (d.size + j) n = eventPath d n := by
  intro j
  induction j with
  | zero => rfl
  | succ j ih =>
    rw [← Nat.add_assoc, pathFrom_succ_of_rank d rank hf (d.size + j) n (by omega), ih]


/-! ## Claims -/

/-- C1: when no element under the host root matches the content selector, the constructor
throws (for a valid selector text the error is `Error('Dialog content not found')`), and the
page after the failed call is the page before it: no wrapper, no append, no other write. -/
theorem constructor_content_not_found (eng : SelectorEngine) (root : Option Nat)
    (sel : String) (options : Options) (p : Page)
    (h : ∀ n ∈ descendants p.doc (root.getD p.doc.body), eng.isMatch sel p.doc n = false) :
    (∃ e, (CustomDialog.constructor eng root sel options p).1 = .threw e) ∧
    (eng.valid sel = true →
      (CustomDialog.constructor eng root sel options p).1
        = .threw (.error "Dialog content not found")) ∧
    (CustomDialog.constructor eng root sel options p).2 = p := by
  have hfind : (descendants p.doc (root.getD p.doc.body)).find? (eng.isMatch sel p.doc) = none := by
    rw [List.find?_eq_none]
    intro x hx
    simp [h x hx]
  by_cases hv : eng.valid sel = true
  · simp [CustomDialog.constructor, querySelector, hv, hfind]
  · simp [CustomDialog.constructor, querySelector, hv]

/-- Witness for C1: no element of the scenario page matches `#missing`. -/
theorem constructor_content_not_found_witness :
    (∀ n ∈ descendants scenarioPage.doc 1,
      simpleEngine.isMatch "#missing" scenarioPage.doc n = false) ∧
    (CustomDialog.constructor simpleEngine none "#missing" ⟨none, .absent⟩ scenarioPage).1
      = .threw (.error "Dialog content not found") ∧
    (CustomDialog.constructor simpleEngine none "#missing" ⟨none, .absent⟩ scenarioPage).2
      = scenarioPage :=
  ⟨by decide,
   (constructor_content_not_found simpleEngine none "#missing" ⟨none, .absent⟩ scenarioPage
      (by decide)).2.1 (by decide),
   (constructor_content_not_found simpleEngine none "#missing" ⟨none, .absent⟩ scenarioPage
      (by decide)).2.2⟩

/-- C2, as stated, fails: with `backdropStyle` given and no style element in the document
yet, the new style element is appended to the host root after the wrapper, so the wrapper
(node 4) is not the last child of the host root (node 1). -/
theorem constructor_wrapper_not_last_child :
    (CustomDialog.constructor simpleEngine none "#content"
        ⟨some "background: black", .single ".close"⟩ scenarioPage).1
      = .returned ⟨1, 2, 4, none⟩ ∧
    childrenOf (CustomDialog.constructor simpleEngine none "#content"
        ⟨some "background: black", .single ".close"⟩ scenarioPage).2 1 = [4, 5] ∧
    (childrenOf (CustomDialog.constructor simpleEngine none "#content"
        ⟨some "background: black", .single ".close"⟩ scenarioPage).2 1).getLast? ≠ some 4 ∧
    ((CustomDialog.constructor simpleEngine none "#content"
        ⟨some "background: black", .single ".close"⟩ scenarioPage).2.doc.elem 5).tag = "style" := by
  decide

/-- C2, amended: on a page whose child lists stay inside the store and whose elements with
id `dynamicDialogStyles`, if any, have no child elements, a constructor call that finds a
match takes as content node the first match in tree order; the new wrapper is a `dialog`
element with the content node as its only child; every other old node keeps its child list
except that the content node is removed from it; the host root keeps its children (without
the content node) followed by the wrapper and then by at most one new node, a `style`
element with id `dynamicDialogStyles` and no children, which can only appear when
`backdropStyle` is given.  So the wrapper is the last child or the last but one. -/
theorem constructor_reparents_content (eng : SelectorEngine) (root : Option Nat)
    (sel : String) (options : Options) (p : Page) (content : Nat)
    (hq : querySelector eng p.doc (root.getD p.doc.body) sel = .ok (some content))
    (hr : root.getD p.doc.body < p.doc.size)
    (hc : p.doc.Closed)
    (hs : ∀ n < p.doc.size, (p.doc.elem n).ident = "dynamicDialogStyles" →
      (p.doc.elem n).children = []) :
    (∃ pre post, descendants p.doc (root.getD p.doc.body) = pre ++ content :: post ∧
        eng.isMatch sel p.doc content = true ∧ ∀ x ∈ pre, eng.isMatch sel p.doc x = false) ∧
    (∀ self, (CustomDialog.constructor eng root sel options p).1 = .returned self →
        self.root = root.getD p.doc.body ∧ self.dialogContent = content ∧
        self.dialog = p.doc.size) ∧
    ((CustomDialog.constructor eng root sel options p).2.doc.elem p.doc.size).tag = "dialog" ∧
    childrenOf (CustomDialog.constructor eng root sel options p).2 p.doc.size = [content] ∧
    (∀ n < p.doc.size, n ≠ root.getD p.doc.body →
        childrenOf (CustomDialog.constructor eng root sel options p).2 n
          = (childrenOf p n).filter (fun x => decide (x ≠ content))) ∧
    ∃ created : List Nat,
      childrenOf (CustomDialog.constructor eng root sel options p).2 (root.getD p.doc.body)
        = (childrenOf p (root.getD p.doc.body)).filter (fun x => decide (x ≠ content))
          ++ [p.doc.size] ++ created ∧
      (CustomDialog.constructor eng root sel options p).2.doc.size
        = p.doc.size + 1 + created.length ∧
      (created = [] ∨
        (created = [p.doc.size + 1] ∧ options.backdropStyle ≠ none ∧
          ((CustomDialog.constructor eng root sel options p).2.doc.elem (p.doc.size + 1)).tag
            = "style" ∧
          ((CustomDialog.constructor eng root sel options p).2.doc.elem (p.doc.size + 1)).ident
            = "dynamicDialogStyles" ∧
          childrenOf (CustomDialog.constructor eng root sel options p).2 (p.doc.size + 1) = [])) ∧
      (options.backdropStyle = none → created = []) ∧
      (∀ n < (CustomDialog.constructor eng root sel options p).2.doc.size, n ≠ p.doc.size →
        content ∉ childrenOf (CustomDialog.constructor eng root sel options p).2 n) := by
  obtain ⟨hmem, hmatch, pre, post, hl, hpre⟩ := querySelector_some eng p.doc _ sel content hq
  have hcont : content < p.doc.size := descendants_lt p.doc hc _ hr content hmem
  have hrne : (p.doc.elem (root.getD p.doc.body)).children ≠ [] := by
    intro h0
    have := subtree_nil_of_children_nil p.doc _ h0 p.doc.size
    unfold descendants at hmem
    rw [this] at hmem
    simp at hmem
  have hpage := (constructor_found eng root sel options p content hq).1
  have hdoc : (CustomDialog.constructor eng root sel options p).2.doc
      = (styledPage ⟨root.getD p.doc.body, content, p.doc.size, none⟩ options
          (wrapContent p (root.getD p.doc.body) content)).doc := by
    rw [hpage, wireSelectors_doc]
  have hch : ∀ n, childrenOf (CustomDialog.constructor eng root sel options p).2 n
      = childrenOf ((⟨root.getD p.doc.body, content, p.doc.size, none⟩ : CustomDialog).backdropOption
          options (wrapContent p (root.getD p.doc.body) content)) n := by
    intro n
    simp only [childrenOf, hdoc, styledPage, setDialogStyle_children]
  have htag : ∀ n, ((CustomDialog.constructor eng root sel options p).2.doc.elem n).tag
      = (((⟨root.getD p.doc.body, content, p.doc.size, none⟩ : CustomDialog).backdropOption
          options (wrapContent p (root.getD p.doc.body) content)).doc.elem n).tag := by
    intro n
    simp only [hdoc, styledPage, setDialogStyle_tag]
  have hident : ∀ n, ((CustomDialog.constructor eng root sel options p).2.doc.elem n).ident
      = (((⟨root.getD p.doc.body, content, p.doc.size, none⟩ : CustomDialog).backdropOption
          options (wrapContent p (root.getD p.doc.body) content)).doc.elem n).ident := by
    intro n
    simp only [hdoc, styledPage, setDialogStyle_ident]
  have hsize : (CustomDialog.constructor eng root sel options p).2.doc.size
      = ((⟨root.getD p.doc.body, content, p.doc.size, none⟩ : CustomDialog).backdropOption
          options (wrapContent p (root.getD p.doc.body) content)).doc.size := by
    simp only [hdoc, styledPage, setDialogStyle_size]
  -- the page that holds the appended wrapper
  have h3w := wrapContent_children_wrapper p (root.getD p.doc.body) content hr hcont
  have h3r := wrapContent_children_root p (root.getD p.doc.body) content hc hr
  have h3o := fun n hn hnr =>
    wrapContent_children_other p (root.getD p.doc.body) content n hc hn hnr
  have hclosed3 : ∀ n < (wrapContent p (root.getD p.doc.body) content).doc.size,
      ∀ x ∈ childrenOf (wrapContent p (root.getD p.doc.body) content) n,
        x < (wrapContent p (root.getD p.doc.body) content).doc.size := by
    intro n hn x hx
    simp only [wrapContent_size] at hn ⊢
    by_cases hnw : n = p.doc.size
    · subst hnw
      rw [h3w] at hx
      simp only [List.mem_singleton] at hx
      omega
    · have hn2 : n < p.doc.size := by omega
      by_cases hnr : n = root.getD p.doc.body
      · subst hnr
        rw [h3r] at hx
        simp only [List.mem_append, List.mem_singleton] at hx
        rcases hx with hx | hx
        · have := hc _ hn2 x (List.mem_of_mem_filter hx)
          omega
        · omega
      · rw [h3o n hn2 hnr] at hx
        have := hc _ hn2 x (List.mem_of_mem_filter hx)
        omega
  have hstyle3 : ∀ t, getElementById (wrapContent p (root.getD p.doc.body) content).doc
        "dynamicDialogStyles" = some t →
      t < (wrapContent p (root.getD p.doc.body) content).doc.size →
      childrenOf (wrapContent p (root.getD p.doc.body) content) t = [] := by
    intro t ht hlt
    have hid := (getElementById_some _ _ t ht).2
    rw [wrapContent_ident] at hid
    simp only [wrapContent_size] at hlt
    by_cases htw : t = p.doc.size
    · simp [htw] at hid
    · simp only [htw, if_false] at hid
      have ht2 : t < p.doc.size := by omega
      have hnil := hs t ht2 hid
      have htr : t ≠ root.getD p.doc.body := by
        rintro rfl
        exact hrne hnil
      rw [h3o t ht2 htr]
      simp [childrenOf, hnil]
  obtain ⟨created, hkids, htags, hsz, hcase, hnone⟩ :=
    backdropOption_children ⟨root.getD p.doc.body, content, p.doc.size, none⟩ options
      (wrapContent p (root.getD p.doc.body) content) hstyle3 hclosed3
  simp only [wrapContent_size] at hkids htags hsz hcase
  have hrw : root.getD p.doc.body ≠ p.doc.size := by omega
  have hcre : content ∉ created := by
    rcases hcase with h0 | ⟨h1, _⟩
    · simp [h0]
    · rw [h1]
      simp only [List.mem_singleton]
      omega
  refine ⟨⟨pre, post, hl, hmatch, hpre⟩, ?_, ?_, ?_, ?_, created, ?_, ?_, ?_, hnone, ?_⟩
  · intro self hself
    obtain ⟨c2, hq2, hs2, _⟩ := constructor_returned eng root sel options p self hself
    rw [hq] at hq2
    simp only [Except.ok.injEq, Option.some.injEq] at hq2
    subst hq2
    rw [hs2]
    exact ⟨rfl, rfl, rfl⟩
  · rw [htag, htags _ (by omega), wrapContent_tag]
  · rw [hch, hkids _ (by omega), h3w]
    have : p.doc.size ≠ root.getD p.doc.body := fun h => hrw h.symm
    simp [this]
  · intro n hn hnr
    rw [hch, hkids _ (by omega), h3o n hn hnr]
    simp [hnr]
  · rw [hch, hkids _ (by omega), h3r]
    simp
  · rw [hsize, hsz]
  · rcases hcase with h0 | ⟨h1, h2, h3, h4, h5⟩
    · exact Or.inl h0
    · refine Or.inr ⟨h1, h2, ?_, ?_, ?_⟩
      · rw [htag]; exact h3
      · rw [hident]; exact h4
      · rw [hch]; exact h5
  · intro n hn hnw
    rw [hsize, hsz] at hn
    by_cases hlt : n < p.doc.size
    · by_cases hnr : n = root.getD p.doc.body
      · subst hnr
        rw [hch, hkids _ (by omega), h3r]
        simp only [if_true, List.mem_append, List.mem_filter, List.mem_singleton, ne_eq,
          decide_not, Bool.not_eq_eq_eq_not, Bool.not_true, decide_eq_false_iff_not,
          not_true_eq_false, and_false, false_or, not_or]
        exact ⟨by omega, hcre⟩
      · rw [hch, hkids _ (by omega), h3o n hlt hnr]
        simp [hnr, List.mem_filter]
    · rcases hcase with h0 | ⟨h1, _, _, _, h5⟩
      · rw [h0] at hn
        simp only [List.length_nil] at hn
        omega
      · rw [h1] at hn
        simp only [List.length_singleton] at hn
        have hn1 : n = p.doc.size + 1 := by omega
        rw [hn1, hch, h5]
        simp

/-- Witness for C2: the end-to-end scenario with a backdrop style. -/
theorem constructor_reparents_content_witness :
    querySelector simpleEngine scenarioPage.doc 1 "#content" = .ok (some 2) ∧
    scenarioPage.doc.Closed ∧
    (∀ n < 4, (scenarioPage.doc.elem n).ident = "dynamicDialogStyles" →
      (scenarioPage.doc.elem n).children = []) ∧
    childrenOf (CustomDialog.constructor simpleEngine none "#content"
        ⟨some "background: black", .single ".close"⟩ scenarioPage).2 4 = [2] :=
  ⟨rfl, by unfold Doc.Closed; decide, by decide,
   (constructor_reparents_content simpleEngine none "#content"
      ⟨some "background: black", .single ".close"⟩ scenarioPage 2 rfl (by decide)
      (by unfold Doc.Closed; decide) (by decide)).2.2.2.1⟩

/-- C3: from any state, `showDialog`, then `closeDialog`, then the next animation frame
leave the window at the scroll offset it had when `showDialog` was called, whatever the
offset was changed to after Show (`z`) and after Close (`z2`); the last platform call of
the frame is that `scrollTo`, made with behavior `'instant'`. -/
theorem show_close_roundtrip (s : State) (z z2 : Nat) :
    ((CustomDialog.closeDialog ((CustomDialog.showDialog s).2.scrolled z)).scrolled
        z2).frame.page.scrollY = s.page.scrollY ∧
    ((CustomDialog.closeDialog ((CustomDialog.showDialog s).2.scrolled z)).scrolled
        z2).frame.page.calls.getLast? = some (.scrollTo (some s.page.scrollY) "instant") := by
  simp [State.frame, animationFrame, State.scrolled,
    List.foldl_append, FrameCallback.top, cleanupCalls]

/-- C4: for a controller whose content node is not the body element, `showDialog` returns
normally when the wrapper is connected, and when it returns normally the body has position
`fixed`, width `100%` and top `-` scroll offset `px`, the saved offset is the scroll offset
at the call, the wrapper is open, and the content node has display `block`, width `100vw`
and height `100vh`. -/
theorem showDialog_locks (s : State) (hbody : s.self.dialogContent ≠ s.page.doc.body) :
    (isConnected s.page.doc s.self.dialog = true → (CustomDialog.showDialog s).1 = .returned ()) ∧
    ((CustomDialog.showDialog s).1 = .returned () →
      (CustomDialog.showDialog s).2.page.doc.body = s.page.doc.body ∧
      styleOf (CustomDialog.showDialog s).2.page s.page.doc.body "position" = "fixed" ∧
      styleOf (CustomDialog.showDialog s).2.page s.page.doc.body "width" = "100%" ∧
      styleOf (CustomDialog.showDialog s).2.page s.page.doc.body "top"
        = "-" ++ toString s.page.scrollY ++ "px" ∧
      (CustomDialog.showDialog s).2.self.previousScrollY = some s.page.scrollY ∧
      (CustomDialog.showDialog s).2.self.dialog = s.self.dialog ∧
      (CustomDialog.showDialog s).2.self.dialogContent = s.self.dialogContent ∧
      ((CustomDialog.showDialog s).2.page.doc.elem s.self.dialog).isOpen = true ∧
      styleOf (CustomDialog.showDialog s).2.page s.self.dialogContent "display" = "block" ∧
      styleOf (CustomDialog.showDialog s).2.page s.self.dialogContent "width" = "100vw" ∧
      styleOf (CustomDialog.showDialog s).2.page s.self.dialogContent "height" = "100vh") := by
  have hb : s.page.doc.body ≠ s.self.dialogContent := fun h => hbody h.symm
  by_cases hc : isConnected s.page.doc s.self.dialog = true
  · simp [CustomDialog.showDialog, hc, hb]
  · simp [CustomDialog.showDialog, hc, hb]

/-- Witness for C4: the scenario controller, with the window scrolled to 120. -/
theorem showDialog_locks_witness :
    scenarioState.self.dialogContent ≠ scenarioState.page.doc.body ∧
    isConnected scenarioState.page.doc scenarioState.self.dialog = true ∧
    (CustomDialog.showDialog scenarioState).1 = .returned () ∧
    styleOf (CustomDialog.showDialog scenarioState).2.page scenarioState.page.doc.body "position"
      = "fixed" :=
  ⟨by decide, by decide,
   (showDialog_locks scenarioState (by decide)).1 (by decide),
   ((showDialog_locks scenarioState (by decide)).2
      ((showDialog_locks scenarioState (by decide)).1 (by decide))).2.1⟩

/-- C5: when `closeDialog` returns the wrapper is closed, the content node has display
`none`, exactly one callback has been added to the pending animation-frame callbacks
(one `requestAnimationFrame` call in the log), and the body position, top and width and the
scroll offset are what they were; the callback, on whatever page it runs, resets body
position, top and width to `""` in that order and only then calls `scrollTo`; after the
next frame the three body properties are `""`. -/
theorem closeDialog_defers_release (s : State) :
    ((CustomDialog.closeDialog s).page.doc.elem s.self.dialog).isOpen = false ∧
    styleOf (CustomDialog.closeDialog s).page s.self.dialogContent "display" = "none" ∧
    (CustomDialog.closeDialog s).page.frames
      = s.page.frames ++ [.closeCleanup s.self.previousScrollY] ∧
    (CustomDialog.closeDialog s).page.calls
      = s.page.calls ++ [.close s.self.dialog, .setStyle s.self.dialogContent "display" "none",
          .requestAnimationFrame] ∧
    styleOf (CustomDialog.closeDialog s).page s.page.doc.body "position"
      = styleOf s.page s.page.doc.body "position" ∧
    styleOf (CustomDialog.closeDialog s).page s.page.doc.body "top"
      = styleOf s.page s.page.doc.body "top" ∧
    styleOf (CustomDialog.closeDialog s).page s.page.doc.body "width"
      = styleOf s.page s.page.doc.body "width" ∧
    (CustomDialog.closeDialog s).page.scrollY = s.page.scrollY ∧
    (∀ q : Page,
      styleOf (runFrameCallback q (.closeCleanup s.self.previousScrollY)) q.doc.body "position" = "" ∧
      styleOf (runFrameCallback q (.closeCleanup s.self.previousScrollY)) q.doc.body "top" = "" ∧
      styleOf (runFrameCallback q (.closeCleanup s.self.previousScrollY)) q.doc.body "width" = "" ∧
      (runFrameCallback q (.closeCleanup s.self.previousScrollY)).calls
        = q.calls ++ [.setStyle q.doc.body "position" "", .setStyle q.doc.body "top" "",
            .setStyle q.doc.body "width" "", .scrollTo s.self.previousScrollY "instant"]) ∧
    styleOf (CustomDialog.closeDialog s).frame.page s.page.doc.body "position" = "" ∧
    styleOf (CustomDialog.closeDialog s).frame.page s.page.doc.body "top" = "" ∧
    styleOf (CustomDialog.closeDialog s).frame.page s.page.doc.body "width" = "" := by
  have hne : (CustomDialog.closeDialog s).page.frames ≠ [] := by simp
  have hf := animationFrame_style (CustomDialog.closeDialog s).page hne
  simp only [closeDialog_body] at hf
  refine ⟨?_, ?_, ?_, ?_, ?_, ?_, ?_, ?_, ?_, ?_, ?_, ?_⟩
  · simp [CustomDialog.closeDialog]
  · simp [CustomDialog.closeDialog]
  · simp
  · simp
  · simp [CustomDialog.closeDialog]
  · simp [CustomDialog.closeDialog]
  · simp [CustomDialog.closeDialog]
  · simp
  · intro q
    simp [runFrameCallback_style, cleanupCalls]
  · exact hf "position" (Or.inl rfl)
  · exact hf "top" (Or.inr (Or.inl rfl))
  · exact hf "width" (Or.inr (Or.inr rfl))

/-- C6, as stated, fails: the style element is looked up in the document, not in the host
root.  For a controller whose host root (node 2) is not attached to the document the lookup
finds nothing either time, so two calls leave two elements with id `dynamicDialogStyles`
inside the host root (nodes 5 and 6), and the first still holds the rule of the first call. -/
theorem detached_root_two_style_elements :
    (CustomDialog.constructor simpleEngine (some 2) "#content" ⟨none, .absent⟩ detachedPage).1
      = .returned detachedState.self ∧
    isConnected detachedState.page.doc detachedState.self.root = false ∧
    (descendants
        (detachedState.self.setBackdropStyle "color: blue"
          (detachedState.self.setBackdropStyle "color: red" detachedState.page)).doc
        detachedState.self.root).filter
      (fun n => decide (((detachedState.self.setBackdropStyle "color: blue"
          (detachedState.self.setBackdropStyle "color: red" detachedState.page)).doc.elem n).ident
            = "dynamicDialogStyles")) = [5, 6] ∧
    ((detachedState.self.setBackdropStyle "color: blue"
        (detachedState.self.setBackdropStyle "color: red" detachedState.page)).doc.elem
          5).textContent = "dialog::backdrop \x7b color: red \x7d" ∧
    ((detachedState.self.setBackdropStyle "color: blue"
        (detachedState.self.setBackdropStyle "color: red" detachedState.page)).doc.elem
          6).textContent = "dialog::backdrop \x7b color: blue \x7d" := by
  decide

/-- C6, amended: for a controller whose host root is attached to the document, on a page
whose child lists form a forest, if every element of the document with id
`dynamicDialogStyles` lies inside the host root and there is at most one such element, then
after `setBackdropStyle(a)` and `setBackdropStyle(b)` exactly one element inside the host
root has that id, and its text is `dialog::backdrop \x7b b \x7d`. -/
theorem backdrop_style_twice (self : CustomDialog) (p : Page) (a b : String)
    (rank : Nat → Nat) (hf : p.doc.IsForest rank)
    (hde : p.doc.documentElement < p.doc.size)
    (hconn : isConnected p.doc self.root = true)
    (hin : ∀ x ∈ documentNodes p.doc, (p.doc.elem x).ident = "dynamicDialogStyles" →
      x ∈ descendants p.doc self.root)
    (huniq : ∀ x ∈ documentNodes p.doc, ∀ y ∈ documentNodes p.doc,
      (p.doc.elem x).ident = "dynamicDialogStyles" →
      (p.doc.elem y).ident = "dynamicDialogStyles" → x = y) :
    ∃ t,
      (∀ x, (x ∈ descendants (self.setBackdropStyle b (self.setBackdropStyle a p)).doc self.root ∧
            ((self.setBackdropStyle b (self.setBackdropStyle a p)).doc.elem x).ident
              = "dynamicDialogStyles") ↔ x = t) ∧
      ((self.setBackdropStyle b (self.setBackdropStyle a p)).doc.elem t).textContent
        = "dialog::backdrop \x7b " ++ b ++ " \x7d" := by
  have hc := IsForest.closed p.doc rank hf
  have hrootmem : self.root ∈ documentNodes p.doc := by simpa [isConnected] using hconn
  have hroot : self.root < p.doc.size := documentNodes_lt p.doc hc hde _ hrootmem
  cases hg : getElementById p.doc "dynamicDialogStyles" with
  | none =>
    have hno := getElementById_none p.doc _ hg
    rw [setBackdropStyle_none self a p hg]
    -- the page after the first call
    have hch1 : ∀ (v : String), ∀ n < p.doc.size,
        ((setTextContent
            (appendChild (setId (createElement p "style").2 p.doc.size "dynamicDialogStyles")
              self.root p.doc.size) p.doc.size v).doc.elem n).children
          = (p.doc.elem n).children ++ (if n = self.root then [p.doc.size] else []) := by
      intro v n hn
      have hne : n ≠ p.doc.size := by omega
      have hfil : (p.doc.elem n).children.filter (fun x => decide (x ≠ p.doc.size))
          = (p.doc.elem n).children := by
        apply filter_ne_self
        intro hmem
        have := hc n hn _ hmem
        omega
      simp only [setTextContent_children, hne, if_false, appendChild_children, setId_children,
        createElement_elem, hfil]
      split <;> simp
    have hid1 : ∀ n : Nat,
        ((appendChild (setId (createElement p "style").2 p.doc.size "dynamicDialogStyles")
              self.root p.doc.size).doc.elem n).ident
          = if n = p.doc.size then "dynamicDialogStyles" else (p.doc.elem n).ident := by
      intro n
      simp only [appendChild_ident, setId_ident, createElement_elem]
      split <;> simp
    have hg1 : getElementById
        (setTextContent
            (appendChild (setId (createElement p "style").2 p.doc.size "dynamicDialogStyles")
              self.root p.doc.size) p.doc.size (backdropRule a)).doc "dynamicDialogStyles"
          = some p.doc.size := by
      unfold getElementById
      apply find?_unique
      · simp only [documentNodes, descendants, setTextContent_size, appendChild_size, setId_size,
          createElement_size, setTextContent_documentElement, appendChild_documentElement,
          setId_documentElement, createElement_documentElement, List.mem_cons]
        right
        simp only [documentNodes, List.mem_cons] at hrootmem
        rcases hrootmem with h | h
        · rw [← h]
          exact subtree_leaf_root p.doc _ self.root p.doc.size (hch1 _) hroot p.doc.size
        · exact subtree_leaf_below p.doc _ self.root p.doc.size hc (hch1 _) hroot p.doc.size _
            hde h
      · simp [hid1]
      · intro x hx hidx
        rw [setTextContent_ident] at hidx
        simp only [documentNodes, descendants, setTextContent_size, appendChild_size, setId_size,
          createElement_size, setTextContent_documentElement, appendChild_documentElement,
          setId_documentElement, createElement_documentElement, List.mem_cons] at hx
        have hxd : x = p.doc.size ∨ x ∈ documentNodes p.doc := by
          rcases hx with h | h
          · right; rw [h]; simp [documentNodes]
          · rcases subtree_leaf_sub p.doc _ self.root p.doc.size hc (hch1 _) (by simp)
              (p.doc.size + 1) _ hde x h with h' | h'
            · exact Or.inl h'
            · right
              rw [subtree_eq_descendants p.doc rank hf _ hde 1] at h'
              simp [documentNodes, h']
        rcases hxd with h | h
        · exact h
        · exfalso
          have hlt := documentNodes_lt p.doc hc hde x h
          have hne : x ≠ p.doc.size := by omega
          simp only [hid1, hne, if_false, decide_eq_true_eq] at hidx
          exact hno x h hidx
    rw [setBackdropStyle_some self b _ _ hg1]
    refine ⟨p.doc.size, ?_, by simp [backdropRule]⟩
    -- the page after the second call
    have hch2 : ∀ n < p.doc.size,
        ((setTextContent (setTextContent
            (appendChild (setId (createElement p "style").2 p.doc.size "dynamicDialogStyles")
              self.root p.doc.size) p.doc.size (backdropRule a)) p.doc.size
              (backdropRule b)).doc.elem n).children
          = (p.doc.elem n).children ++ (if n = self.root then [p.doc.size] else []) := by
      intro n hn
      have hne : n ≠ p.doc.size := by omega
      rw [setTextContent_children, if_neg hne]
      exact hch1 _ n hn
    intro x
    simp only [descendants, setTextContent_size, appendChild_size, setId_size,
      createElement_size, setTextContent_ident]
    constructor
    · rintro ⟨hx, hidx⟩
      rcases subtree_leaf_sub p.doc _ self.root p.doc.size hc hch2 (by simp)
          (p.doc.size + 1) _ hroot x hx with h' | h'
      · exact h'
      · exfalso
        rw [subtree_eq_descendants p.doc rank hf _ hroot 1] at h'
        have hxd := mem_documentNodes_of_descendant p.doc rank hf hde _ x hrootmem h'
        have hlt := documentNodes_lt p.doc hc hde x hxd
        have hne : x ≠ p.doc.size := by omega
        simp only [hid1, hne, if_false] at hidx
        exact hno x hxd hidx
    · rintro rfl
      refine ⟨subtree_leaf_root p.doc _ self.root p.doc.size hch2 hroot p.doc.size, ?_⟩
      simp [hid1]
  | some t =>
    obtain ⟨htmem, htid⟩ := getElementById_some p.doc _ t hg
    have htroot := hin t htmem htid
    rw [setBackdropStyle_some self a p t hg]
    have hg1 : getElementById (setTextContent p t (backdropRule a)).doc "dynamicDialogStyles"
        = some t := by
      unfold getElementById
      apply find?_unique
      · simp only [documentNodes, descendants, setTextContent_size,
          setTextContent_documentElement, List.mem_cons]
        simp only [documentNodes, descendants, List.mem_cons] at htmem
        rcases htmem with h | h
        · exact Or.inl h
        · exact Or.inr (subtree_prune_keeps p.doc _ t (fun n => setTextContent_children p t n _)
            rank hf p.doc.size _ hde h)
      · simp [htid]
      · intro x hx hidx
        simp only [documentNodes, descendants, setTextContent_size,
          setTextContent_documentElement, List.mem_cons] at hx
        have hxd : x ∈ documentNodes p.doc := by
          rcases hx with h | h
          · rw [h]; simp [documentNodes]
          · have := subtree_prune_sub p.doc _ t (fun n => setTextContent_children p t n _)
              p.doc.size _ x h
            simp only [documentNodes, descendants, List.mem_cons]
            exact Or.inr this
        simp only [setTextContent_ident, decide_eq_true_eq] at hidx
        exact huniq x hxd t htmem hidx htid
    rw [setBackdropStyle_some self b _ t hg1]
    refine ⟨t, ?_, by simp [backdropRule]⟩
    have hch2 : ∀ n, ((setTextContent (setTextContent p t (backdropRule a)) t
          (backdropRule b)).doc.elem n).children
        = if n = t then [] else (p.doc.elem n).children := by
      intro n
      simp only [setTextContent_children]
      split <;> rfl
    intro x
    simp only [descendants, setTextContent_size, setTextContent_ident]
    constructor
    · rintro ⟨hx, hidx⟩
      have h' := subtree_prune_sub p.doc _ t hch2 p.doc.size _ x hx
      have hxd := mem_documentNodes_of_descendant p.doc rank hf hde _ x hrootmem h'
      exact huniq x hxd t htmem hidx htid
    · rintro rfl
      exact ⟨subtree_prune_keeps p.doc _ x hch2 rank hf p.doc.size _ hroot htroot, htid⟩

/-- Witness for C6: the scenario controller, whose host root is the body. -/
theorem backdrop_style_twice_witness :
    scenarioState.page.doc.IsForest scenarioStateRank ∧
    isConnected scenarioState.page.doc scenarioState.self.root = true ∧
    ∃ t,
      (∀ x, (x ∈ descendants (scenarioState.self.setBackdropStyle "color: blue"
                (scenarioState.self.setBackdropStyle "color: red" scenarioState.page)).doc
                scenarioState.self.root ∧
            ((scenarioState.self.setBackdropStyle "color: blue"
                (scenarioState.self.setBackdropStyle "color: red"
                  scenarioState.page)).doc.elem x).ident = "dynamicDialogStyles") ↔ x = t) ∧
      ((scenarioState.self.setBackdropStyle "color: blue"
          (scenarioState.self.setBackdropStyle "color: red" scenarioState.page)).doc.elem
            t).textContent = "dialog::backdrop \x7b color: blue \x7d" :=
  ⟨by unfold Doc.IsForest; decide, by decide,
   (backdrop_style_twice scenarioState.self scenarioState.page "color: red" "color: blue"
     scenarioStateRank (by unfold Doc.IsForest; decide) (by decide) (by decide) (by decide)
     (by decide)).imp (fun _ h => ⟨h.1, h.2.trans (by decide)⟩)⟩

/-- C7, as stated, fails: listeners are not deduplicated.  With selectors
`['.close', 'button']` the one button of the scenario page (node 3, a descendant of the
content node) matches both, gets two listeners, and one click on it runs `closeDialog`
twice: two cleanup callbacks are pending afterwards, where one call leaves one. -/
theorem click_invokes_close_twice :
    (CustomDialog.constructor simpleEngine none "#content"
        ⟨none, .array [".close", "button"]⟩ scenarioPage).1 = .returned ⟨1, 2, 4, none⟩ ∧
    3 ∈ descendants (CustomDialog.constructor simpleEngine none "#content"
        ⟨none, .array [".close", "button"]⟩ scenarioPage).2.doc 2 ∧
    simpleEngine.isMatch ".close" (CustomDialog.constructor simpleEngine none "#content"
        ⟨none, .array [".close", "button"]⟩ scenarioPage).2.doc 3 = true ∧
    clickHandlers (CustomDialog.constructor simpleEngine none "#content"
        ⟨none, .array [".close", "button"]⟩ scenarioPage).2 3
      = [.callCloseDialog, .callCloseDialog] ∧
    (click ⟨(CustomDialog.constructor simpleEngine none "#content"
        ⟨none, .array [".close", "button"]⟩ scenarioPage).2, ⟨1, 2, 4, none⟩⟩ 3).page.frames.length
      = 2 ∧
    (CustomDialog.closeDialog ⟨(CustomDialog.constructor simpleEngine none "#content"
        ⟨none, .array [".close", "button"]⟩ scenarioPage).2, ⟨1, 2, 4, none⟩⟩).page.frames.length
      = 1 := by
  decide

/-- C7, amended: after a constructor call that returns, on a page that had no listeners of
the controller before, one click on an element runs `closeDialog` once per listener on its
propagation path, and the number of those listeners is the number of pairs of a selector
occurrence in the sequence and a node of the path (the clicked element or an ancestor) that
is a descendant of the content node matched by that occurrence.  The click thus leaves the
state of that many consecutive `closeDialog` calls: exactly one when there is exactly one
such pair. -/
theorem click_runs_every_handler (eng : SelectorEngine) (root : Option Nat) (sel : String)
    (options : Options) (p : Page) (self : CustomDialog)
    (h : (CustomDialog.constructor eng root sel options p).1 = .returned self)
    (hl : p.listeners = []) (target : Nat) :
    clickHandlers (CustomDialog.constructor eng root sel options p).2 target
      = List.replicate
          (((eventPath (CustomDialog.constructor eng root sel options p).2.doc target).map
              (fun a => (wiredElements eng (CustomDialog.constructor eng root sel options p).2.doc
                  self.dialogContent (selectorList options.closeButtonSelectors)).count a)).sum)
          Handler.callCloseDialog ∧
    click ⟨(CustomDialog.constructor eng root sel options p).2, self⟩ target
      = Nat.iterate CustomDialog.closeDialog
          (((eventPath (CustomDialog.constructor eng root sel options p).2.doc target).map
              (fun a => (wiredElements eng (CustomDialog.constructor eng root sel options p).2.doc
                  self.dialogContent (selectorList options.closeButtonSelectors)).count a)).sum)
          ⟨(CustomDialog.constructor eng root sel options p).2, self⟩ := by
  obtain ⟨content, hq, hself, hv⟩ := constructor_returned eng root sel options p self h
  have hc := constructor_listeners eng root sel options p content hq hv
  rw [hl, List.nil_append] at hc
  have hcontent : self.dialogContent = content := by rw [hself]
  rw [hcontent]
  have h1 : clickHandlers (CustomDialog.constructor eng root sel options p).2 target
      = List.replicate
          (((eventPath (CustomDialog.constructor eng root sel options p).2.doc target).map
              (fun a => (wiredElements eng (CustomDialog.constructor eng root sel options p).2.doc
                  content (selectorList options.closeButtonSelectors)).count a)).sum)
          Handler.callCloseDialog := by
    unfold clickHandlers
    rw [← flatMap_replicate]
    congr 1
    funext a
    exact listenersOn_eq _ _ a hc
  refine ⟨h1, ?_⟩
  unfold click
  simp only []
  rw [h1, foldl_runHandler_replicate]

/-- Witness for C7: selectors `['button.a', 'button.b']` with two matching buttons each;
a click on a `button.a` (node 3) or on a `button.b` (node 5) runs `closeDialog` once. -/
theorem click_runs_every_handler_witness :
    (CustomDialog.constructor simpleEngine none "#content"
        ⟨none, .array ["button.a", "button.b"]⟩ fourButtonsPage).1
      = .returned ⟨1, 2, 7, none⟩ ∧
    fourButtonsPage.listeners = [] ∧
    clickHandlers (CustomDialog.constructor simpleEngine none "#content"
        ⟨none, .array ["button.a", "button.b"]⟩ fourButtonsPage).2 3 = [.callCloseDialog] ∧
    clickHandlers (CustomDialog.constructor simpleEngine none "#content"
        ⟨none, .array ["button.a", "button.b"]⟩ fourButtonsPage).2 5 = [.callCloseDialog] :=
  ⟨by decide, rfl,
   (click_runs_every_handler simpleEngine none "#content"
      ⟨none, .array ["button.a", "button.b"]⟩ fourButtonsPage ⟨1, 2, 7, none⟩ (by decide) rfl
      3).1.trans (by decide),
   (click_runs_every_handler simpleEngine none "#content"
      ⟨none, .array ["button.a", "button.b"]⟩ fourButtonsPage ⟨1, 2, 7, none⟩ (by decide) rfl
      5).1.trans (by decide)⟩

/-- C8: when the content node is found, a construction whose `closeButtonSelectors` is an
array `ss` of valid selector texts returns, and the click listeners it adds are, selector by
selector in the order of `ss`, on the descendants of the content node that match that
selector: an element gets a listener exactly when it is a descendant of the content node
and matches at least one text of `ss`, nothing outside the content subtree gets one, and a
selector without a match adds none and raises no error.  A single string `s` gives the
same result as the array `[s]`: the listeners are on the descendants of the content node
that match `s`.  When the option is not given, the text looked up is `undefined`. -/
theorem close_handlers_scope (eng : SelectorEngine) (root : Option Nat) (sel : String)
    (backdrop : Option String) (p : Page) (content : Nat)
    (hq : querySelector eng p.doc (root.getD p.doc.body) sel = .ok (some content)) :
    (∀ ss : List String, (∀ s ∈ ss, eng.valid s = true) →
      (CustomDialog.constructor eng root sel ⟨backdrop, .array ss⟩ p).1
        = .returned ⟨root.getD p.doc.body, content, p.doc.size, none⟩ ∧
      (CustomDialog.constructor eng root sel ⟨backdrop, .array ss⟩ p).2.listeners
        = p.listeners
          ++ (ss.flatMap (fun s =>
                (descendants (CustomDialog.constructor eng root sel ⟨backdrop, .array ss⟩ p).2.doc
                  content).filter
                  (eng.isMatch s
                    (CustomDialog.constructor eng root sel ⟨backdrop, .array ss⟩ p).2.doc))).map
              (fun b => (b, Handler.callCloseDialog)) ∧
      ∀ n, n ∈ ss.flatMap (fun s =>
                (descendants (CustomDialog.constructor eng root sel ⟨backdrop, .array ss⟩ p).2.doc
                  content).filter
                  (eng.isMatch s
                    (CustomDialog.constructor eng root sel ⟨backdrop, .array ss⟩ p).2.doc))
          ↔ n ∈ descendants (CustomDialog.constructor eng root sel ⟨backdrop, .array ss⟩ p).2.doc
                content ∧
            ∃ s ∈ ss, eng.isMatch s
              (CustomDialog.constructor eng root sel ⟨backdrop, .array ss⟩ p).2.doc n = true) ∧
    (∀ s : String,
      CustomDialog.constructor eng root sel ⟨backdrop, .single s⟩ p
        = CustomDialog.constructor eng root sel ⟨backdrop, .array [s]⟩ p ∧
      (eng.valid s = true →
        (CustomDialog.constructor eng root sel ⟨backdrop, .single s⟩ p).1
          = .returned ⟨root.getD p.doc.body, content, p.doc.size, none⟩ ∧
        (CustomDialog.constructor eng root sel ⟨backdrop, .single s⟩ p).2.listeners
          = p.listeners
            ++ ((descendants (CustomDialog.constructor eng root sel ⟨backdrop, .single s⟩ p).2.doc
                  content).filter
                  (eng.isMatch s
                    (CustomDialog.constructor eng root sel ⟨backdrop, .single s⟩ p).2.doc)).map
                (fun b => (b, Handler.callCloseDialog)))) ∧
    (eng.valid "undefined" = true →
      (CustomDialog.constructor eng root sel ⟨backdrop, .absent⟩ p).1
        = .returned ⟨root.getD p.doc.body, content, p.doc.size, none⟩ ∧
      (CustomDialog.constructor eng root sel ⟨backdrop, .absent⟩ p).2.listeners
        = p.listeners
          ++ ((descendants (CustomDialog.constructor eng root sel ⟨backdrop, .absent⟩ p).2.doc
                content).filter
                (eng.isMatch "undefined"
                  (CustomDialog.constructor eng root sel ⟨backdrop, .absent⟩ p).2.doc)).map
              (fun b => (b, Handler.callCloseDialog))) := by
  refine ⟨?_, ?_, ?_⟩
  · intro ss hv
    have hv2 : ∀ s ∈ selectorList (Options.mk backdrop (.array ss)).closeButtonSelectors,
        eng.valid s = true := by
      simpa [selectorList] using hv
    refine ⟨(constructor_found eng root sel _ p content hq).2 hv2, ?_, ?_⟩
    · have := constructor_listeners eng root sel ⟨backdrop, .array ss⟩ p content hq hv2
      simpa [wiredElements, selectorList] using this
    · intro n
      have := mem_wiredElements eng
        (CustomDialog.constructor eng root sel ⟨backdrop, .array ss⟩ p).2.doc content ss n
      simpa [wiredElements] using this
  · intro s
    refine ⟨?_, ?_⟩
    · simp [CustomDialog.constructor, CustomDialog.initializeEvents, selectorList, styledPage,
        CustomDialog.backdropOption]
    · intro hv
      have hv2 : ∀ t ∈ selectorList (Options.mk backdrop (.single s)).closeButtonSelectors,
          eng.valid t = true := by
        simpa [selectorList] using hv
      refine ⟨(constructor_found eng root sel _ p content hq).2 hv2, ?_⟩
      have := constructor_listeners eng root sel ⟨backdrop, .single s⟩ p content hq hv2
      simpa [wiredElements, selectorList] using this
  · intro hv
    have hv2 : ∀ t ∈ selectorList (Options.mk backdrop .absent).closeButtonSelectors,
        eng.valid t = true := by
      simpa [selectorList] using hv
    refine ⟨(constructor_found eng root sel _ p content hq).2 hv2, ?_⟩
    have := constructor_listeners eng root sel ⟨backdrop, .absent⟩ p content hq hv2
    simpa [wiredElements, selectorList] using this

/-- Witness for C8: the end-to-end scenario.  With the single string `.close` the only
listener is on the button (node 3); with the array `['.missing', '.close', 'button']` the
text without a match adds nothing and the button gets one listener for each of the other
two. -/
theorem close_handlers_scope_witness :
    querySelector simpleEngine scenarioPage.doc 1 "#content" = .ok (some 2) ∧
    simpleEngine.valid ".close" = true ∧
    (∀ s ∈ [".missing", ".close", "button"], simpleEngine.valid s = true) ∧
    (CustomDialog.constructor simpleEngine none "#content" ⟨none, .single ".close"⟩
        scenarioPage).2.listeners = [(3, .callCloseDialog)] ∧
    (CustomDialog.constructor simpleEngine none "#content"
        ⟨none, .array [".missing", ".close", "button"]⟩ scenarioPage).2.listeners
      = [(3, .callCloseDialog), (3, .callCloseDialog)] :=
  ⟨rfl, by decide, by decide,
   (((close_handlers_scope simpleEngine none "#content" none scenarioPage 2 rfl).2.1
      ".close").2 (by decide)).2.trans (by decide),
   ((close_handlers_scope simpleEngine none "#content" none scenarioPage 2 rfl).1
      [".missing", ".close", "button"] (by decide)).2.1.trans (by decide)⟩

/-- C9, as stated, fails: the constructor sets the wrapper border to `unset`, not `none`. -/
theorem wrapper_border_is_unset :
    (CustomDialog.constructor simpleEngine none "#content" ⟨none, .single ".close"⟩
        scenarioPage).1 = .returned ⟨1, 2, 4, none⟩ ∧
    styleOf (CustomDialog.constructor simpleEngine none "#content" ⟨none, .single ".close"⟩
        scenarioPage).2 4 "border" = "unset" ∧
    styleOf (CustomDialog.constructor simpleEngine none "#content" ⟨none, .single ".close"⟩
        scenarioPage).2 4 "border" ≠ "none" := by
  decide

/-- C9, amended: after every constructor call that returns, with or without
`backdropStyle`, the inline style of the wrapper holds border `unset`, overflow `unset`,
padding `0`, margin `0 auto`, background-color `unset`, max-width `unset`, max-height
`unset`, color `unset`, position `relative`, and no other property. -/
theorem wrapper_style_after_construction (eng : SelectorEngine) (root : Option Nat)
    (sel : String) (options : Options) (p : Page) (self : CustomDialog)
    (h : (CustomDialog.constructor eng root sel options p).1 = .returned self) :
    styleOf (CustomDialog.constructor eng root sel options p).2 self.dialog "border" = "unset" ∧
    styleOf (CustomDialog.constructor eng root sel options p).2 self.dialog "overflow" = "unset" ∧
    styleOf (CustomDialog.constructor eng root sel options p).2 self.dialog "padding" = "0" ∧
    styleOf (CustomDialog.constructor eng root sel options p).2 self.dialog "margin" = "0 auto" ∧
    styleOf (CustomDialog.constructor eng root sel options p).2 self.dialog "background-color"
      = "unset" ∧
    styleOf (CustomDialog.constructor eng root sel options p).2 self.dialog "max-width" = "unset" ∧
    styleOf (CustomDialog.constructor eng root sel options p).2 self.dialog "max-height" = "unset" ∧
    styleOf (CustomDialog.constructor eng root sel options p).2 self.dialog "color" = "unset" ∧
    styleOf (CustomDialog.constructor eng root sel options p).2 self.dialog "position"
      = "relative" ∧
    ∀ q, q ∉ ["border", "overflow", "padding", "margin", "background-color", "max-width",
              "max-height", "color", "position"] →
      styleOf (CustomDialog.constructor eng root sel options p).2 self.dialog q = "" := by
  obtain ⟨content, hq, hself, _⟩ := constructor_returned eng root sel options p self h
  have hpage := (constructor_found eng root sel options p content hq).1
  have key : ∀ q, styleOf (CustomDialog.constructor eng root sel options p).2 self.dialog q
      = (if q = "position" then "relative" else if q = "color" then "unset"
           else if q = "max-height" then "unset" else if q = "max-width" then "unset"
           else if q = "background-color" then "unset" else if q = "margin" then "0 auto"
           else if q = "padding" then "0" else if q = "overflow" then "unset"
           else if q = "border" then "unset" else "") := by
    intro q
    rw [hpage, styleOf, wireSelectors_doc, ← styleOf, hself]
    rw [styledPage_style _ _ _ _ _ (by simp) rfl]
    simp only [wrapContent_style]
  refine ⟨?_, ?_, ?_, ?_, ?_, ?_, ?_, ?_, ?_, ?_⟩
  all_goals first
    | (rw [key]; decide)
    | (intro q hq; rw [key]; simp only [List.mem_cons, List.mem_singleton, not_or, List.not_mem_nil, or_false] at hq; simp [hq])

/-- Witness for C9: the end-to-end scenario with a backdrop style. -/
theorem wrapper_style_after_construction_witness :
    (CustomDialog.constructor simpleEngine none "#content"
        ⟨some "background: black", .single ".close"⟩ scenarioPage).1
      = .returned ⟨1, 2, 4, none⟩ ∧
    styleOf (CustomDialog.constructor simpleEngine none "#content"
        ⟨some "background: black", .single ".close"⟩ scenarioPage).2 4 "border" = "unset" :=
  ⟨by decide,
   (wrapper_style_after_construction simpleEngine none "#content"
      ⟨some "background: black", .single ".close"⟩ scenarioPage ⟨1, 2, 4, none⟩
      (by decide)).1⟩

/-- C10: after `closeDialog`, whatever public method calls follow, the callback it scheduled
is still pending behind the callbacks that were pending before, and the next animation
frame runs it: the frame is the run of the older callbacks, then of this one, then of the
later ones.  On whatever page that callback runs it clears body position, top and width,
ends with `scrollTo` with the offset saved at that `closeDialog` and behavior `instant`,
and leaves that offset as the scroll offset; after the frame the three body properties
are `""`.  In particular after Show, Close, Show and a frame, a connected wrapper is open
while the body is not locked. -/
theorem cleanup_not_cancellable (s : State) (cs : List Call) :
    (∃ later,
      ((CustomDialog.closeDialog s).calls cs).page.frames
        = s.page.frames ++ .closeCleanup s.self.previousScrollY :: later ∧
      ((CustomDialog.closeDialog s).calls cs).frame.page
        = later.foldl runFrameCallback
            (runFrameCallback
              (s.page.frames.foldl runFrameCallback
                { ((CustomDialog.closeDialog s).calls cs).page with frames := [] })
              (.closeCleanup s.self.previousScrollY))) ∧
    (∀ q : Page,
      styleOf (runFrameCallback q (.closeCleanup s.self.previousScrollY)) q.doc.body "position" = "" ∧
      styleOf (runFrameCallback q (.closeCleanup s.self.previousScrollY)) q.doc.body "top" = "" ∧
      styleOf (runFrameCallback q (.closeCleanup s.self.previousScrollY)) q.doc.body "width" = "" ∧
      (runFrameCallback q (.closeCleanup s.self.previousScrollY)).calls.getLast?
        = some (.scrollTo s.self.previousScrollY "instant") ∧
      ∀ y, s.self.previousScrollY = some y →
        (runFrameCallback q (.closeCleanup s.self.previousScrollY)).scrollY = y) ∧
    styleOf ((CustomDialog.closeDialog s).calls cs).frame.page s.page.doc.body "position" = "" ∧
    styleOf ((CustomDialog.closeDialog s).calls cs).frame.page s.page.doc.body "top" = "" ∧
    styleOf ((CustomDialog.closeDialog s).calls cs).frame.page s.page.doc.body "width" = "" ∧
    (isConnected s.page.doc s.self.dialog = true →
      ((((s.call .showDialog).call .closeDialog).call .showDialog).frame.page.doc.elem
          s.self.dialog).isOpen = true ∧
      styleOf (((s.call .showDialog).call .closeDialog).call .showDialog).frame.page
          s.page.doc.body "position" = "" ∧
      styleOf (((s.call .showDialog).call .closeDialog).call .showDialog).frame.page
          s.page.doc.body "top" = "" ∧
      styleOf (((s.call .showDialog).call .closeDialog).call .showDialog).frame.page
          s.page.doc.body "width" = "") := by
  obtain ⟨later, hl⟩ := frames_calls cs (CustomDialog.closeDialog s)
  have hfr : ((CustomDialog.closeDialog s).calls cs).page.frames
      = s.page.frames ++ .closeCleanup s.self.previousScrollY :: later := by
    rw [hl]; simp
  have hne : ((CustomDialog.closeDialog s).calls cs).page.frames ≠ [] := by
    rw [hfr]; simp
  have hb : ((CustomDialog.closeDialog s).calls cs).page.doc.body = s.page.doc.body := by
    rw [body_calls]; simp
  have hf := animationFrame_style ((CustomDialog.closeDialog s).calls cs).page hne
  rw [hb] at hf
  refine ⟨⟨later, hfr, ?_⟩, ?_, hf "position" (Or.inl rfl), hf "top" (Or.inr (Or.inl rfl)),
    hf "width" (Or.inr (Or.inr rfl)), ?_⟩
  · exact animationFrame_split _ _ _ _ hfr
  · intro q
    refine ⟨?_, ?_, ?_, ?_, ?_⟩
    · simp [runFrameCallback_style]
    · simp [runFrameCallback_style]
    · simp [runFrameCallback_style]
    · simp [cleanupCalls]
    · intro y hy; simp [hy, FrameCallback.top]
  · intro hc
    have hne2 : (((s.call .showDialog).call .closeDialog).call .showDialog).page.frames ≠ [] := by
      simp [State.call]
    have hb2 : (((s.call .showDialog).call .closeDialog).call .showDialog).page.doc.body
        = s.page.doc.body := by simp [State.call]
    have hf2 := animationFrame_style
      (((s.call .showDialog).call .closeDialog).call .showDialog).page hne2
    rw [hb2] at hf2
    refine ⟨?_, hf2 "position" (Or.inl rfl), hf2 "top" (Or.inr (Or.inl rfl)),
      hf2 "width" (Or.inr (Or.inr rfl))⟩
    simp only [State.frame, animationFrame_isOpen, State.call]
    have := showDialog_isOpen (CustomDialog.closeDialog (CustomDialog.showDialog s).2)
      (by simpa using hc)
    simpa using this

/-- Witness for C10: the scenario controller; after Show, Close, Show and a frame the
wrapper is open and the body is not position-locked. -/
theorem cleanup_not_cancellable_witness :
    isConnected scenarioState.page.doc scenarioState.self.dialog = true ∧
    ((((scenarioState.call .showDialog).call .closeDialog).call .showDialog).frame.page.doc.elem
        scenarioState.self.dialog).isOpen = true ∧
    styleOf (((scenarioState.call .showDialog).call .closeDialog).call .showDialog).frame.page
        scenarioState.page.doc.body "position" = "" :=
  ⟨by decide,
   ((cleanup_not_cancellable scenarioState [.showDialog]).2.2.2.2.2 (by decide)).1,
   ((cleanup_not_cancellable scenarioState [.showDialog]).2.2.2.2.2 (by decide)).2.1⟩

end WebAPIs
